import Mathlib

/-!
Verification of the clu migration engine against its specification.

The definitions below are a shallow embedding of the Rust sources:

* `src/github.rs` — the GitHub forge client: pull-request status
  classification (`fetch_pull_state`) and create-vs-update
  reconciliation (`sync_pull_request`);
* `src/workspace.rs` — the per-target execution context
  (`Workspace::new_clean_workspace`, `Workspace::run_command_successfully`);
* `src/steps/mod.rs`, `src/steps/script_exec.rs`, `src/steps/git.rs` —
  the typed step results and the pre-flight / migration-script steps;
* `src/migration.rs` — the per-target pipeline
  (`run_migration_task`, `run_migration_script`, `prepair_pr`);
* `src/bin/clu.rs` — result aggregation into the campaign state and the
  error log, and the bounded-concurrency scheduling of pipelines.

Network calls, subprocess executions and filesystem effects are modelled
by explicit oracle structures (worlds) recording the outcome of each
external interaction, and the pipeline functions additionally return the
ordered list of externally visible actions they perform.
-/

/-! ## GitHub GraphQL data model (src/github.rs and the generated query types) -/

/-- MergeableState of the GetPullRequestStatusQuery GraphQL schema. -/
inductive MergeableState
  | CONFLICTING
  | MERGEABLE
  | UNKNOWN
  deriving DecidableEq

/-- StatusState of a commit status-check rollup in the GraphQL schema. -/
inductive StatusState
  | ERROR
  | EXPECTED
  | FAILURE
  | PENDING
  | SUCCESS
  deriving DecidableEq

/-- PullRequestState of the GraphQL schema. -/
inductive PullRequestState
  | CLOSED
  | MERGED
  | OPEN
  deriving DecidableEq

/-- The `status_check_rollup` object of the latest commit. -/
structure StatusCheckRollup where
  state : StatusState
  deriving DecidableEq

/-- The `commit` object inside a commit node of the query response. -/
structure CommitInfo where
  status_check_rollup : Option StatusCheckRollup
  deriving DecidableEq

/-- One node of the `commits` connection of the query response. -/
structure CommitNode where
  commit : CommitInfo
  deriving DecidableEq

/-- The `commits` connection: GraphQL makes both the node list and each
    node nullable, exactly as `Option<Vec<Option<_>>>` in the generated
    Rust types. -/
structure CommitConnection where
  nodes : Option (List (Option CommitNode))
  deriving DecidableEq

/-- The pull-request object returned by `fetch_pr_details`. -/
structure GhPullRequest where
  id : String
  number : Int
  permalink : String
  merged : Bool
  mergeable : MergeableState
  state : PullRequestState
  commits : CommitConnection
  deriving DecidableEq

/-- PullStatus from src/github.rs. -/
inductive PullStatus
  | ChecksFailed
  | NeedsApproval
  | Mergeable
  | Merged
  deriving DecidableEq

/-- PullState from src/github.rs. -/
structure PullState where
  status : PullStatus
  permalink : String
  deriving DecidableEq

/-- Embedding of `fetch_pull_state` from src/github.rs (the same decision
    tree appears verbatim in `GithubApiClient::fetch_pull_state`): the
    classification applied to the pull request returned by
    `fetch_pr_details`. -/
def fetch_pull_state (gh_pull : GhPullRequest) : PullState :=
  if gh_pull.merged then
    { permalink := gh_pull.permalink, status := PullStatus.Merged }
  else if gh_pull.mergeable = MergeableState.MERGEABLE then
    { permalink := gh_pull.permalink, status := PullStatus.Mergeable }
  else
    let gh_nodes := gh_pull.commits.nodes.getD []
    match gh_nodes.head? with
    | some (some gh_commit) =>
      match gh_commit.commit.status_check_rollup with
      | some check =>
        match check.state with
        | StatusState.SUCCESS =>
          { permalink := gh_pull.permalink, status := PullStatus.Mergeable }
        | StatusState.PENDING =>
          { permalink := gh_pull.permalink, status := PullStatus.Mergeable }
        | _ => { permalink := gh_pull.permalink, status := PullStatus.ChecksFailed }
      | none => { permalink := gh_pull.permalink, status := PullStatus.ChecksFailed }
    | _ => { permalink := gh_pull.permalink, status := PullStatus.ChecksFailed }

/-- Projection used to state the fallback clause of the classification:
    the rollup state of the latest commit, `none` when there is no commit
    node or the commit carries no rollup information. -/
def latestRollup (gh_pull : GhPullRequest) : Option StatusState :=
  match (gh_pull.commits.nodes.getD []).head? with
  | some (some gh_commit) => gh_commit.commit.status_check_rollup.map StatusCheckRollup.state
  | _ => none

/-! ## Workspace model (src/workspace.rs) -/

/-- CommandError from src/workspace.rs. -/
inductive CommandError
  | NonZeroExit (command : String) (working_dir : String) (code : Int)
  | IoError
  deriving DecidableEq

/-- Exit status of a finished subprocess: `some code` when the process
    exited with a code, `none` when it terminated without one (for
    example when killed by a signal, where Rust's `status.code()` is
    `None`). -/
abbrev ExitStatus := Option Int

/-- Rust's `ExitStatus::success()`: true exactly for exit code zero. -/
def ExitStatus.success : ExitStatus → Bool
  | some 0 => true
  | _ => false

/-- Embedding of `Workspace::run_command_successfully`: the outer `Option`
    is the panic monad — `none` models the panic of
    `status.code().unwrap()` when the status carries no code. -/
def Workspace.run_command_successfully (args working_dir : String)
    (status : ExitStatus) : Option (Except CommandError Unit) :=
  if status.success then
    some (Except.ok ())
  else
    match status with
    | some code =>
      some (Except.error (CommandError.NonZeroExit args working_dir code))
    | none => none

/-- An entry of a directory: a file with contents or a subdirectory. -/
inductive FsEntry
  | file (name : String) (contents : String)
  | dir (name : String) (entries : List FsEntry)

/-- The name of a directory entry. -/
def FsEntry.name : FsEntry → String
  | FsEntry.file n _ => n
  | FsEntry.dir n _ => n

/-- The state of the filesystem at the workspace path: `none` when
    nothing exists there, `some entries` when a directory with the given
    entries does. -/
abbrev DirState := Option (List FsEntry)

/-- Rust's `File::create`: truncates an existing file of that name, or
    creates a fresh empty one. -/
def createFile (entries : List FsEntry) (nm : String) : List FsEntry :=
  if entries.any (fun e => e.name = nm) then
    entries.map (fun e => if e.name = nm then FsEntry.file nm "" else e)
  else
    entries ++ [FsEntry.file nm ""]

/-- Embedding of `Workspace::new` from src/workspace.rs: creates (and
    truncates) `stdout.log` then `stderr.log` inside the workspace
    directory. The outer `Option` models the `std::io::Error` result:
    `none` when the directory does not exist and `File::create` fails. -/
def Workspace.new (workspace_dir : DirState) : Option DirState :=
  match workspace_dir with
  | none => none
  | some entries => some (some (createFile (createFile entries "stdout.log") "stderr.log"))

/-- Embedding of `Workspace::new_clean_workspace` from src/workspace.rs:
    if the workspace directory exists it is removed recursively
    (`remove_dir_all`), then recreated (`create_dir_all`), then
    `Workspace::new` creates the two log files. -/
def Workspace.new_clean_workspace (workspace_dir : DirState) : Option DirState :=
  let after_remove : DirState :=
    if workspace_dir.isSome then none else workspace_dir
  let after_create : DirState :=
    match after_remove with
    | none => some []
    | some entries => some entries
  Workspace.new after_create

/-! ## Step results and steps (src/steps/mod.rs, src/steps/script_exec.rs, src/steps/git.rs) -/

/-- CreatedPullRequest: the persisted pull-request reference (number and
    permalink) stored per target in the campaign state. -/
structure CreatedPullRequest where
  pr_number : Int
  url : String
  deriving DecidableEq

/-- MigrationError: the error taxonomy of the pipeline. The variants are
    those of `MigrationError` in src/migration.rs together with the
    step-level variants constructed in src/steps/script_exec.rs and
    src/steps/git.rs; `CommandFailed` embeds the variant wrapping a
    workspace command error, and `GitError` the conversion of a libgit2
    error. The anyhow payloads carried by some variants are dropped. -/
inductive MigrationError
  | UnableToCheckoutRepo (repo : String)
  | UnableToCreatePullRequest
  | InvalidGitRepo
  | IoError
  | AnyHowError
  | MigrationStepErrored (step_name : String)
  | WorkingDirNotClean (step_name : String) (files : List String)
  | CommandFailed (e : CommandError)
  | GitError
  deriving DecidableEq

instance {ε α : Type} [DecidableEq ε] [DecidableEq α] : DecidableEq (Except ε α) :=
  fun x y =>
    match x, y with
    | Except.ok a, Except.ok b => decidable_of_iff (a = b) (by simp)
    | Except.error a, Except.error b => decidable_of_iff (a = b) (by simp)
    | Except.ok _, Except.error _ => isFalse (fun h => Except.noConfusion h)
    | Except.error _, Except.ok _ => isFalse (fun h => Except.noConfusion h)

/-- MigrationStepResult from src/steps/mod.rs. -/
structure MigrationStepResult (Output : Type) where
  name : String
  terminal : Bool
  result : Except MigrationError Output
  did_execute : Bool
  deriving DecidableEq

/-- Constructor `MigrationStepResult::success_with_result`. -/
def MigrationStepResult.success_with_result {Output : Type} (name : String)
    (result : Output) : MigrationStepResult Output :=
  { name := name, terminal := false, result := Except.ok result, did_execute := true }

/-- Constructor `MigrationStepResult::failure`. -/
def MigrationStepResult.failure {Output : Type} (name : String)
    (error : MigrationError) : MigrationStepResult Output :=
  { name := name, terminal := true, result := Except.error error, did_execute := true }

/-- Constructor `MigrationStepResult::success`. -/
def MigrationStepResult.success (name : String) : MigrationStepResult Unit :=
  MigrationStepResult.success_with_result name ()

/-- Constructor `MigrationStepResult::abort`: terminal but carrying an
    `Ok` result, i.e. not an error. -/
def MigrationStepResult.abort (name : String) : MigrationStepResult Unit :=
  { name := name, terminal := true, result := Except.ok (), did_execute := true }

/-- Embedding of `PreFlightCheckStep::execute_step` from
    src/steps/script_exec.rs, as a function of the outcome of
    `run_command_successfully` on the pre-flight command. -/
def PreFlightCheckStep.execute_step (cmd_result : Except CommandError Unit) :
    MigrationStepResult Unit :=
  match cmd_result with
  | Except.ok _ => MigrationStepResult.success "pre-flight"
  | Except.error _ => MigrationStepResult.abort "pre-flight"

/-- Outcome of the git status query performed by
    `RepoCheck::check_for_untracked_files`: whether opening the repository
    and listing statuses succeeded, and the file paths reported. -/
structure GitStatusWorld where
  open_ok : Bool
  files : List String
  deriving DecidableEq

/-- Embedding of `RepoCheck::check_for_untracked_files` from
    src/steps/git.rs. -/
def RepoCheck.check_for_untracked_files (step_name : String)
    (w : GitStatusWorld) : Except MigrationError Unit :=
  if w.open_ok = false then Except.error MigrationError.GitError
  else if w.files.isEmpty then Except.ok ()
  else Except.error (MigrationError.WorkingDirNotClean step_name w.files)

/-- Embedding of `MigrationScriptStep::execute_step` from
    src/steps/script_exec.rs, as a function of the script command's
    outcome and of the git status query run immediately after it. -/
def MigrationScriptStep.execute_step (step_name : String)
    (cmd_result : Except CommandError Unit) (git : GitStatusWorld) :
    MigrationStepResult Unit :=
  match cmd_result with
  | Except.error _ =>
    MigrationStepResult.failure "migration-step:exec"
      (MigrationError.MigrationStepErrored step_name)
  | Except.ok _ =>
    match RepoCheck.check_for_untracked_files step_name git with
    | Except.error e => MigrationStepResult.failure "migration-step:untracked_files" e
    | Except.ok _ => MigrationStepResult.success "migration-step"

/-! ## Campaign-level result aggregation (src/bin/clu.rs) -/

/-- MigrationStatus as consumed by `run_migration` in src/bin/clu.rs: a
    pipeline outcome carrying either a pull-request step result or a unit
    step result. -/
inductive MigrationStatus
  | PullRequest (result : MigrationStepResult CreatedPullRequest)
  | EmptyResponse (result : MigrationStepResult Unit)
  deriving DecidableEq

/-- The error carried by a pipeline outcome, when there is one. -/
def MigrationStatus.errorOf : MigrationStatus → Option MigrationError
  | MigrationStatus.PullRequest r =>
    match r.result with
    | Except.error e => some e
    | Except.ok _ => none
  | MigrationStatus.EmptyResponse r =>
    match r.result with
    | Except.error e => some e
    | Except.ok _ => none

/-- Embedding of the error-log accumulation loop of `run_migration` in
    src/bin/clu.rs: one entry (target name and error) is pushed per
    collected result whose inner `result` is an `Err`; `Ok` results
    (successful publishes and aborts) push nothing. -/
def error_log : List (String × MigrationStatus) → List (String × MigrationError)
  | [] => []
  | p :: rest =>
    match p.2 with
    | MigrationStatus.PullRequest r =>
      match r.result with
      | Except.error e => (p.1, e) :: error_log rest
      | Except.ok _ => error_log rest
    | MigrationStatus.EmptyResponse r =>
      match r.result with
      | Except.error e => (p.1, e) :: error_log rest
      | Except.ok _ => error_log rest

/-! ## The per-target pipeline (src/migration.rs) -/

/-- ExecutionOptions from src/migration.rs. -/
structure ExecutionOptions where
  skip_pull_request : Bool
  skip_push : Bool
  dry_run : Bool
  deriving DecidableEq

/-- ExecutionOptions::is_push_enabled from src/migration.rs. -/
def ExecutionOptions.is_push_enabled (o : ExecutionOptions) : Bool :=
  !o.dry_run && !o.skip_push

/-- ExecutionOptions::is_pr_enabled from src/migration.rs. -/
def ExecutionOptions.is_pr_enabled (o : ExecutionOptions) : Bool :=
  !o.dry_run && !o.skip_pull_request

/-- One declared migration step of the recipe: its name and its script. -/
structure MigrationStepDefinition where
  name : String
  migration_script : String
  deriving DecidableEq

/-- MigrationTask from src/migration.rs, with the fields of the embedded
    `MigrationDefinition` (`checkout.branch_name`, `pr.title`,
    `pr.description` and `steps`) flattened in. -/
structure MigrationTask where
  pretty_name : String
  repo : String
  branch_name : String
  pr_title : String
  pr_body : String
  steps : List MigrationStepDefinition
  execution_opts : ExecutionOptions
  pull_request : Option CreatedPullRequest
  deriving DecidableEq

/-- PullRequestOutput from src/github.rs. -/
structure PullRequestOutput where
  number : Int
  permalink : String
  deriving DecidableEq

/-- ExpectedResults from src/migration.rs. -/
inductive ExpectedResults
  | DryRun
  | PreFlightCheckFailed
  | WorkingDirNotClean (files : List String)
  | MigrationFailed (step : String)
  | PullRequest (pr : CreatedPullRequest)
  deriving DecidableEq

/-- ThisResult from src/migration.rs. -/
inductive ThisResult
  | Ok
  | ExpectedError (r : ExpectedResults)
  deriving DecidableEq

/-- The two forge calls `prepair_pr` can make to publish the branch. -/
inductive PublishKind
  | update
  | create
  deriving DecidableEq

/-- The externally visible side-effecting operations a pipeline run can
    perform: the clone command, the pre-flight command, the i-th declared
    migration-step command, the force push, and the forge publish call. -/
inductive PipelineAction
  | clone
  | preflight
  | step (idx : Nat) (name : String)
  | push
  | publish (kind : PublishKind)
  deriving DecidableEq

/-- Position of an action in the fixed pipeline order, for a recipe with
    n migration steps. -/
def PipelineAction.phase (n : Nat) : PipelineAction → Nat
  | PipelineAction.clone => 0
  | PipelineAction.preflight => 1
  | PipelineAction.step i _ => 2 + i
  | PipelineAction.push => 2 + n
  | PipelineAction.publish _ => 3 + n

/-- Oracle for one pipeline run: the outcome of every external
    interaction `run_migration_task` may perform, in the order the source
    performs them — path canonicalization, `extract_github_info`,
    `Workspace::new`, the clone, the pre-flight command, each step's
    command, opening the repository and querying its status, the force
    push, and the update/create forge calls. -/
structure PipelineWorld where
  canonicalize_ok : Bool
  extract_ok : Bool
  workspace_new_ok : Bool
  clone_ok : Bool
  preflight_ok : Bool
  step_ok : Nat → Bool
  repo_open_ok : Bool
  status_files : List String
  push_ok : Bool
  update_result : Option PullRequestOutput
  create_result : Option PullRequestOutput

/-- The for-loop of `run_migration_script`: runs the declared steps in
    order starting at index i, stopping at the first failing command and
    returning its step name. -/
def run_steps (w : PipelineWorld) (i : Nat) :
    List MigrationStepDefinition → Option String × List PipelineAction
  | [] => (none, [])
  | s :: rest =>
    if w.step_ok i then
      ((run_steps w (i + 1) rest).1,
        PipelineAction.step i s.name :: (run_steps w (i + 1) rest).2)
    else
      (some s.name, [PipelineAction.step i s.name])

/-- Embedding of `run_migration_script` from src/migration.rs: runs every
    step, then opens the repository and queries its status; a failing open
    or status query propagates as an anyhow error, and a non-empty status
    yields the WorkingDirNotClean expected error (carrying only the file
    list — the check runs once, after the whole loop). -/
def run_migration_script (task : MigrationTask) (w : PipelineWorld) :
    Except MigrationError ThisResult × List PipelineAction :=
  match (run_steps w 0 task.steps).1 with
  | some step_name =>
    (Except.ok (ThisResult.ExpectedError (ExpectedResults.MigrationFailed step_name)),
      (run_steps w 0 task.steps).2)
  | none =>
    if w.repo_open_ok = false then
      (Except.error MigrationError.AnyHowError, (run_steps w 0 task.steps).2)
    else if w.status_files.isEmpty then
      (Except.ok ThisResult.Ok, (run_steps w 0 task.steps).2)
    else
      (Except.ok (ThisResult.ExpectedError
        (ExpectedResults.WorkingDirNotClean w.status_files)), (run_steps w 0 task.steps).2)

/-- The publish half of `prepair_pr`: update the remembered pull request
    when there is one (unconditionally — `prepair_pr` does not check
    whether it is still open), otherwise create a fresh one when pull
    requests are enabled, otherwise bail out (the source bails with the
    DryRun marker as the anyhow payload, abstracted to `Unit` here). -/
def prepair_pr_publish (task : MigrationTask) (w : PipelineWorld) :
    Except Unit CreatedPullRequest × List PipelineAction :=
  match task.pull_request with
  | some _ =>
    match w.update_result with
    | some out =>
      (Except.ok { pr_number := out.number, url := out.permalink },
        [PipelineAction.publish PublishKind.update])
    | none => (Except.error (), [PipelineAction.publish PublishKind.update])
  | none =>
    if task.execution_opts.is_pr_enabled then
      match w.create_result with
      | some out =>
        (Except.ok { pr_number := out.number, url := out.permalink },
          [PipelineAction.publish PublishKind.create])
      | none => (Except.error (), [PipelineAction.publish PublishKind.create])
    else
      (Except.error (), [])

/-- Embedding of `prepair_pr` from src/migration.rs: force-push first when
    pushing is enabled (a push failure propagates as an error before any
    forge call), then update or create the pull request. -/
def prepair_pr (task : MigrationTask) (w : PipelineWorld) :
    Except Unit CreatedPullRequest × List PipelineAction :=
  if task.execution_opts.is_push_enabled then
    if w.push_ok then
      ((prepair_pr_publish task w).1,
        PipelineAction.push :: (prepair_pr_publish task w).2)
    else
      (Except.error (), [PipelineAction.push])
  else
    prepair_pr_publish task w

/-- Embedding of `run_migration_task` from src/migration.rs, returning the
    pipeline result together with the ordered list of externally visible
    actions performed: canonicalize, extract the owner/repo pair, open the
    workspace, clone, pre-flight, the migration script loop with its
    status check, and — unless dry-run — `prepair_pr`; every error result
    of `prepair_pr` is wrapped as UnableToCreatePullRequest. -/
def run_migration_task (task : MigrationTask) (w : PipelineWorld) :
    Except MigrationError ExpectedResults × List PipelineAction :=
  if w.canonicalize_ok = false then (Except.error MigrationError.IoError, [])
  else if w.extract_ok = false then (Except.error MigrationError.InvalidGitRepo, [])
  else if w.workspace_new_ok = false then (Except.error MigrationError.IoError, [])
  else if w.clone_ok = false then
    (Except.error (MigrationError.UnableToCheckoutRepo task.repo), [PipelineAction.clone])
  else if w.preflight_ok = false then
    (Except.ok ExpectedResults.PreFlightCheckFailed, [PipelineAction.clone, PipelineAction.preflight])
  else
    match (run_migration_script task w).1 with
    | Except.error e =>
      (Except.error e,
        PipelineAction.clone :: PipelineAction.preflight :: (run_migration_script task w).2)
    | Except.ok (ThisResult.ExpectedError r) =>
      (Except.ok r,
        PipelineAction.clone :: PipelineAction.preflight :: (run_migration_script task w).2)
    | Except.ok ThisResult.Ok =>
      if task.execution_opts.dry_run = false then
        match (prepair_pr task w).1 with
        | Except.error _ =>
          (Except.error MigrationError.UnableToCreatePullRequest,
            (PipelineAction.clone :: PipelineAction.preflight ::
              (run_migration_script task w).2) ++ (prepair_pr task w).2)
        | Except.ok p =>
          (Except.ok (ExpectedResults.PullRequest p),
            (PipelineAction.clone :: PipelineAction.preflight ::
              (run_migration_script task w).2) ++ (prepair_pr task w).2)
      else
        (Except.ok ExpectedResults.DryRun,
          PipelineAction.clone :: PipelineAction.preflight :: (run_migration_script task w).2)

/-- The world where every external interaction succeeds and the working
    tree is clean after the steps. -/
def PipelineWorld.allOk : PipelineWorld :=
  { canonicalize_ok := true, extract_ok := true, workspace_new_ok := true,
    clone_ok := true, preflight_ok := true, step_ok := fun _ => true,
    repo_open_ok := true, status_files := [],
    push_ok := true, update_result := some { number := 1, permalink := "u" },
    create_result := some { number := 1, permalink := "c" } }

/-- Whether the world makes the given action fail. -/
def PipelineWorld.failsAt (w : PipelineWorld) : PipelineAction → Bool
  | PipelineAction.clone => !w.clone_ok
  | PipelineAction.preflight => !w.preflight_ok
  | PipelineAction.step i _ => !w.step_ok i
  | PipelineAction.push => !w.push_ok
  | PipelineAction.publish PublishKind.update => w.update_result.isNone
  | PipelineAction.publish PublishKind.create => w.create_result.isNone

/-- The full step-action list for a recipe's steps, starting at index i. -/
def stepActions : Nat → List MigrationStepDefinition → List PipelineAction
  | _, [] => []
  | i, s :: rest => PipelineAction.step i s.name :: stepActions (i + 1) rest

/-- The publish actions of `prepair_pr`, determined by the task alone. -/
def pubActions (task : MigrationTask) : List PipelineAction :=
  match task.pull_request with
  | some _ => [PipelineAction.publish PublishKind.update]
  | none =>
    if task.execution_opts.is_pr_enabled then [PipelineAction.publish PublishKind.create]
    else []

/-- Whether the pipeline reaches the push/publish stage: every external
    interaction before `prepair_pr` succeeds and the tree is clean. -/
def reaches_publish_stage (task : MigrationTask) (w : PipelineWorld) : Bool :=
  w.canonicalize_ok && w.extract_ok && w.workspace_new_ok && w.clone_ok &&
    w.preflight_ok && (List.range task.steps.length).all (fun j => w.step_ok j) &&
    w.repo_open_ok && w.status_files.isEmpty

/-- Whether an action belongs to the stages before push and publish. -/
def PipelineAction.isEarly : PipelineAction → Bool
  | PipelineAction.clone => true
  | PipelineAction.preflight => true
  | PipelineAction.step _ _ => true
  | PipelineAction.push => false
  | PipelineAction.publish _ => false

/-- The clone, pre-flight and migration-step actions of a trace — the
    actions of the stages before push and publish. -/
def earlyActions (t : List PipelineAction) : List PipelineAction :=
  t.filter PipelineAction.isEarly

/-- A one-step example task used to instantiate the pipeline theorems on
    concrete inputs. -/
def exampleTask : MigrationTask :=
  { pretty_name := "repo-a", repo := "git@github.com:org/repo-a.git",
    branch_name := "demo", pr_title := "Example Title", pr_body := "Example body",
    steps := [{ name := "rename", migration_script := "rename.sh" }],
    execution_opts := { skip_pull_request := false, skip_push := false, dry_run := false },
    pull_request := none }

/-- The example task with only the skip-push flag set. -/
def exampleSkipPushTask : MigrationTask :=
  { exampleTask with
    execution_opts := { skip_pull_request := false, skip_push := true, dry_run := false } }

/-- A world where the pre-flight command exits non-zero and everything
    else succeeds. -/
def preflightFailWorld : PipelineWorld :=
  { PipelineWorld.allOk with preflight_ok := false }

/-- A world where every command succeeds but the migration step leaves
    an uncommitted file in the working tree. -/
def exampleDirtyWorld : PipelineWorld :=
  { PipelineWorld.allOk with status_files := ["a.txt"] }

/-! ## Forge client reconciliation (src/github.rs, src/steps/github.rs) -/

/-- GitHubError from src/github.rs (payloads abbreviated where the claim
    does not need them). -/
inductive GitHubError
  | UnableToDetermineRepo (path : String)
  | GraphQlError
  | NoSuchRepository
  | NoSuchPullRequest
  | NoDefaultBranch
  | UnableToCreatePullRequest
  | NetworkError
  deriving DecidableEq

/-- The `defaultBranchRef` object of the repository query: the branch
    name and its ref prefix; `prefix_str` embeds the source's `prefix`
    field (a Lean keyword). -/
structure BranchRef where
  name : String
  prefix_str : String
  deriving DecidableEq

/-- The repository object of the GetRepositoryQuery response. -/
structure GhRepository where
  id : String
  default_branch_ref : Option BranchRef
  deriving DecidableEq

/-- GithubApiRepo from src/github.rs. -/
structure GithubApiRepo where
  id : String
  target_branch : String
  prefix_str : String
  deriving DecidableEq

/-- PullRequestDescription from src/github.rs. -/
structure PullRequestDescription where
  branch : String
  title : String
  body : String
  deriving DecidableEq

/-- One GraphQL call made by the client, with the arguments relevant to
    reconciliation. -/
inductive ForgeCall
  | fetchPr (number : Int)
  | updatePr (pull_request_id : String) (title : String) (body : String)
  | fetchRepo
  | createPr (base_ref : String) (head_ref : String) (title : String) (body : String)
  deriving DecidableEq

/-- Oracle for the forge: the pull request returned for each number
    (`none` models a failed fetch), the repository details, and the
    outcomes of the update and create mutations. -/
structure ForgeWorld where
  pr_details : Int → Option GhPullRequest
  repository : Option GhRepository
  update_result : Option PullRequestOutput
  create_result : Option PullRequestOutput

/-- Embedding of `fetch_repo_details` from src/github.rs: resolves the
    repository id and its current default branch, whose qualified name is
    the ref prefix concatenated with the branch name. -/
def fetch_repo_details (w : ForgeWorld) : Except GitHubError GithubApiRepo :=
  match w.repository with
  | none => Except.error GitHubError.NoSuchRepository
  | some r =>
    match r.default_branch_ref with
    | none => Except.error GitHubError.NoDefaultBranch
    | some db =>
      Except.ok
        { id := r.id, target_branch := db.prefix_str ++ db.name,
          prefix_str := db.prefix_str }

/-- Embedding of `GithubApiClient::is_pr_open`: fetch the pull request
    and test whether its state is OPEN. -/
def is_pr_open (w : ForgeWorld) (pr_number : Int) :
    Except GitHubError Bool × List ForgeCall :=
  match w.pr_details pr_number with
  | none => (Except.error GitHubError.NoSuchPullRequest, [ForgeCall.fetchPr pr_number])
  | some gh_pull =>
    (Except.ok (decide (gh_pull.state = PullRequestState.OPEN)),
      [ForgeCall.fetchPr pr_number])

/-- Embedding of `GithubApiClient::update_pull_request`: fetch the pull
    request to learn its node id, then post the update mutation with the
    new title and body (the target branch is never touched). -/
def update_pull_request (w : ForgeWorld) (d : PullRequestDescription)
    (pr_number : Int) : Except GitHubError PullRequestOutput × List ForgeCall :=
  match w.pr_details pr_number with
  | none => (Except.error GitHubError.NoSuchPullRequest, [ForgeCall.fetchPr pr_number])
  | some gh_pull =>
    match w.update_result with
    | some pr =>
      (Except.ok pr,
        [ForgeCall.fetchPr pr_number, ForgeCall.updatePr gh_pull.id d.title d.body])
    | none =>
      (Except.error GitHubError.UnableToCreatePullRequest,
        [ForgeCall.fetchPr pr_number, ForgeCall.updatePr gh_pull.id d.title d.body])

/-- Embedding of `GithubApiClient::create_pull_request`: fetch the
    repository details, then post the create mutation with the current
    default branch as base ref. -/
def create_pull_request (w : ForgeWorld) (d : PullRequestDescription) :
    Except GitHubError PullRequestOutput × List ForgeCall :=
  match fetch_repo_details w with
  | Except.error e => (Except.error e, [ForgeCall.fetchRepo])
  | Except.ok repo_details =>
    match w.create_result with
    | some pr =>
      (Except.ok pr,
        [ForgeCall.fetchRepo,
          ForgeCall.createPr repo_details.target_branch
            (repo_details.prefix_str ++ d.branch) d.title d.body])
    | none =>
      (Except.error GitHubError.UnableToCreatePullRequest,
        [ForgeCall.fetchRepo,
          ForgeCall.createPr repo_details.target_branch
            (repo_details.prefix_str ++ d.branch) d.title d.body])

/-- Embedding of `GithubApiClient::sync_pull_request`: when a remembered
    pull-request number is given, query whether it is still open; update
    it when open, otherwise fall back to creating a fresh pull request;
    with no remembered number, create directly. -/
def sync_pull_request (w : ForgeWorld) (d : PullRequestDescription)
    (pr_number : Option Int) :
    Except GitHubError PullRequestOutput × List ForgeCall :=
  match pr_number with
  | some num =>
    match (is_pr_open w num).1 with
    | Except.error e => (Except.error e, (is_pr_open w num).2)
    | Except.ok update_pr =>
      if update_pr then
        ((update_pull_request w d num).1,
          (is_pr_open w num).2 ++ (update_pull_request w d num).2)
      else
        ((create_pull_request w d).1,
          (is_pr_open w num).2 ++ (create_pull_request w d).2)
  | none => create_pull_request w d

/-- Embedding of `UpdateGithubStep::execute_step` from
    src/steps/github.rs: delegates to `sync_pull_request`, passing the
    remembered pull request's number when the target carries one. -/
def UpdateGithubStep.execute_step (w : ForgeWorld)
    (existing_pr : Option CreatedPullRequest) (d : PullRequestDescription) :
    MigrationStepResult CreatedPullRequest × List ForgeCall :=
  match (sync_pull_request w d (existing_pr.map (fun p => p.pr_number))).1 with
  | Except.error _ =>
    (MigrationStepResult.failure "pull-request" MigrationError.UnableToCreatePullRequest,
      (sync_pull_request w d (existing_pr.map (fun p => p.pr_number))).2)
  | Except.ok new_pr =>
    (MigrationStepResult.success_with_result "pull-request"
      { pr_number := new_pr.number, url := new_pr.permalink },
      (sync_pull_request w d (existing_pr.map (fun p => p.pr_number))).2)

/-- An open example pull request for instantiating the reconciliation
    theorem. -/
def exampleOpenPr : GhPullRequest :=
  { id := "PR_id", number := 7, permalink := "https://example/pull/7",
    merged := false, mergeable := MergeableState.UNKNOWN,
    state := PullRequestState.OPEN, commits := ⟨none⟩ }

/-- An example forge world whose every pull-request fetch returns the
    open example pull request. -/
def exampleForgeWorld : ForgeWorld :=
  { pr_details := fun _ => some exampleOpenPr,
    repository := some
      { id := "R1",
        default_branch_ref := some { name := "main", prefix_str := "refs/heads/" } },
    update_result := some { number := 7, permalink := "u" },
    create_result := some { number := 8, permalink := "c" } }

/-- An example pull-request description. -/
def examplePrDescription : PullRequestDescription :=
  { branch := "demo", title := "Example Title", body := "Example body" }

/-! ## Campaign state rewrite (src/bin/clu.rs) -/

/-- TargetDescription as used by `run_migration` in src/bin/clu.rs: the
    clone url, the per-target environment, the skip flag and the
    remembered pull request. -/
structure TargetDescription where
  repo : String
  env : List (String × String)
  skip : Bool
  pull_request : Option CreatedPullRequest
  deriving DecidableEq

/-- The pull request delivered by a successfully published pipeline
    outcome, if any. -/
def status_success_pr : MigrationStatus → Option CreatedPullRequest
  | MigrationStatus.PullRequest r =>
    match r.result with
    | Except.ok pr => some pr
    | Except.error _ => none
  | MigrationStatus.EmptyResponse _ => none

/-- One iteration of the rewrite loop of `run_migration`: store the new
    pull request on the named target. -/
def apply_result (targets : List (String × TargetDescription))
    (pretty_name : String) (pr : CreatedPullRequest) :
    List (String × TargetDescription) :=
  targets.map (fun p =>
    if p.1 = pretty_name then (p.1, { p.2 with pull_request := some pr }) else p)

/-- The rewrite loop of `run_migration` in src/bin/clu.rs: for every
    collected result carrying a successfully published pull request, the
    named target's remembered pull request is replaced; all other results
    touch nothing. The outer `Option` models the `unwrap` panic of
    `targets.get_mut(name).unwrap()` when the name is unknown. -/
def apply_results (targets : List (String × TargetDescription)) :
    List (String × MigrationStatus) → Option (List (String × TargetDescription))
  | [] => some targets
  | (nm, st) :: rest =>
    match status_success_pr st with
    | some pr =>
      if targets.any (fun p => p.1 = nm) then
        apply_results (apply_result targets nm pr) rest
      else
        none
    | none => apply_results targets rest

/-- The successfully published pull request recorded for a name in the
    collected result map (the map's keys are unique). -/
def lookup_success (results : List (String × MigrationStatus)) (nm : String) :
    Option CreatedPullRequest :=
  match results.find? (fun p => p.1 = nm) with
  | some p => status_success_pr p.2
  | none => none

/-- An example target with no remembered pull request. -/
def exampleTargetA : TargetDescription :=
  { repo := "git@github.com:org/repo-a.git", env := [], skip := false,
    pull_request := none }

/-- A second example target with no remembered pull request. -/
def exampleTargetB : TargetDescription :=
  { repo := "git@github.com:org/repo-b.git", env := [], skip := false,
    pull_request := none }

/-- An example created pull request. -/
def examplePr12 : CreatedPullRequest :=
  { pr_number := 12, url := "https://example/pull/12" }

/-- An example result map: repo-a published successfully, repo-b failed
    at clone. -/
def exampleResults : List (String × MigrationStatus) :=
  [("repo-a", MigrationStatus.PullRequest
      (MigrationStepResult.success_with_result "pull-request" examplePr12)),
   ("repo-b", MigrationStatus.EmptyResponse
      (MigrationStepResult.failure "clone"
        (MigrationError.UnableToCheckoutRepo "org/repo-b")))]

/-! ## Bounded-concurrency scheduler (src/bin/clu.rs, src/commands/followup.rs) -/

/-- The worker limit passed to `for_each_concurrent` in both
    `run_migration` and `run_followup`. -/
def worker_limit : Nat := 3

/-- A scheduler state: targets not yet started, targets whose pipeline is
    executing (each with an open execution context), and finished
    targets in completion order. -/
structure SchedulerState where
  pending : List String
  active : List String
  finished : List String
  deriving DecidableEq

/-- One scheduler transition, following the documented contract of
    `futures::StreamExt::for_each_concurrent` with the limit taken from
    the source: a pending pipeline may start only while fewer than
    `worker_limit` pipelines are executing, and any executing pipeline
    may finish; no other step exists, so pipelines of distinct targets
    run in no fixed order. -/
inductive SchedulerStep : SchedulerState → SchedulerState → Prop
  | start (name : String) (p a f : List String) :
      name ∈ p → a.length < worker_limit →
      SchedulerStep ⟨p, a, f⟩ ⟨p.erase name, name :: a, f⟩
  | finish (name : String) (p a f : List String) :
      name ∈ a →
      SchedulerStep ⟨p, a, f⟩ ⟨p, a.erase name, name :: f⟩

/-- States reachable by the scheduler from the initial state holding the
    given targets. -/
def SchedulerReachable (targets : List String) (s : SchedulerState) : Prop :=
  Relation.ReflTransGen SchedulerStep ⟨targets, [], []⟩ s

/-! ## Theorems for the claims -/

/-- C1: status classification evaluates signals in strict priority order —
    merged wins over everything, then the MERGEABLE flag, then the latest
    commit's check rollup, where a missing commit or missing rollup yields
    ChecksFailed, SUCCESS or PENDING yields Mergeable and any other rollup
    state yields ChecksFailed; the classification never returns
    NeedsApproval. -/
theorem fetch_pull_state_priority (pr : GhPullRequest) :
    (pr.merged = true → (fetch_pull_state pr).status = PullStatus.Merged)
    ∧ (pr.merged = false → pr.mergeable = MergeableState.MERGEABLE →
        (fetch_pull_state pr).status = PullStatus.Mergeable)
    ∧ (pr.merged = false → pr.mergeable ≠ MergeableState.MERGEABLE →
        latestRollup pr = none →
        (fetch_pull_state pr).status = PullStatus.ChecksFailed)
    ∧ (∀ s : StatusState, pr.merged = false → pr.mergeable ≠ MergeableState.MERGEABLE →
        latestRollup pr = some s →
        (fetch_pull_state pr).status =
          (if s = StatusState.SUCCESS ∨ s = StatusState.PENDING
            then PullStatus.Mergeable else PullStatus.ChecksFailed))
    ∧ (fetch_pull_state pr).status ≠ PullStatus.NeedsApproval := by
  obtain ⟨i, num, link, merged, mergeable, st, ⟨nodes⟩⟩ := pr
  cases merged with
  | true => simp [fetch_pull_state]
  | false =>
    by_cases hm : mergeable = MergeableState.MERGEABLE
    · subst hm; simp [fetch_pull_state]
    · rcases nodes with _ | nodes
      · simp [fetch_pull_state, latestRollup, hm]
      · rcases nodes with _ | ⟨hd, tl⟩
        · simp [fetch_pull_state, latestRollup, hm]
        · rcases hd with _ | c
          · simp [fetch_pull_state, latestRollup, hm]
          · rcases c with ⟨⟨rollup⟩⟩
            rcases rollup with _ | ⟨⟨rs⟩⟩
            · simp [fetch_pull_state, latestRollup, hm]
            · cases rs <;> simp [fetch_pull_state, latestRollup, hm]

/-- Concrete instance of `fetch_pull_state_priority`: a non-merged pull
    request with a CONFLICTING mergeable flag and a SUCCESS rollup on its
    latest commit classifies as Mergeable. -/
theorem fetch_pull_state_priority_witness :
    (fetch_pull_state
      { id := "PR_1", number := 7, permalink := "https://example/pull/7",
        merged := false, mergeable := MergeableState.CONFLICTING,
        state := PullRequestState.OPEN,
        commits := ⟨some [some ⟨⟨some ⟨StatusState.SUCCESS⟩⟩⟩]⟩ }).status =
      PullStatus.Mergeable := by
  have h := (fetch_pull_state_priority
    { id := "PR_1", number := 7, permalink := "https://example/pull/7",
      merged := false, mergeable := MergeableState.CONFLICTING,
      state := PullRequestState.OPEN,
      commits := ⟨some [some ⟨⟨some ⟨StatusState.SUCCESS⟩⟩⟩]⟩ }).2.2.2.1
    StatusState.SUCCESS rfl (by decide) rfl
  simpa using h

/-- C9: `run_command_successfully` panics (because of `unwrap` on `None`)
    when the subprocess terminated without an exit code, returns `Ok(())`
    exactly when the exit status is success (exit code zero), and returns
    `Err(NonZeroExit)` for every non-zero exit code. -/
theorem run_command_successfully_spec (args wd : String) (st : ExitStatus) :
    (st = none → Workspace.run_command_successfully args wd st = none)
    ∧ (Workspace.run_command_successfully args wd st = some (Except.ok ()) ↔
        st.success = true)
    ∧ (∀ c : Int, c ≠ 0 → st = some c →
        Workspace.run_command_successfully args wd st =
          some (Except.error (CommandError.NonZeroExit args wd c)))
    ∧ (st.success = true ↔ st = some 0) := by
  rcases st with _ | c
  · simp [Workspace.run_command_successfully, ExitStatus.success]
  · by_cases hc : c = 0
    · subst hc
      simp only [Workspace.run_command_successfully, ExitStatus.success]
      refine ⟨by simp, by simp, ?_, by simp⟩
      intro d hd hsome
      exact absurd (Option.some_inj.mp hsome).symm hd
    · constructor
      · intro h; cases h
      constructor
      · simp [Workspace.run_command_successfully, ExitStatus.success, hc]
      constructor
      · intro d hd hsome
        have : d = c := by injection hsome with h; exact h.symm
        subst this
        simp [Workspace.run_command_successfully, ExitStatus.success, hc]
      · simp [ExitStatus.success, hc]

/-- Concrete instance of `run_command_successfully_spec`: exit code 2
    yields the NonZeroExit error. -/
theorem run_command_successfully_spec_witness :
    Workspace.run_command_successfully "git push" "/work" (some 2) =
      some (Except.error (CommandError.NonZeroExit "git push" "/work" 2)) :=
  (run_command_successfully_spec "git push" "/work" (some 2)).2.2.1 2 (by decide) rfl

/-- C10: `new_clean_workspace` deletes any pre-existing directory at the
    workspace path and recreates it, so that whatever the prior contents
    were, the resulting directory holds exactly the two freshly truncated
    log files stdout.log and stderr.log. -/
theorem new_clean_workspace_spec (prior : DirState) :
    Workspace.new_clean_workspace prior =
      some (some [FsEntry.file "stdout.log" "", FsEntry.file "stderr.log" ""]) := by
  rcases prior with _ | entries <;> rfl

/-- C4: for a migration step whose command exits 0, the step inspects the
    git working tree immediately afterwards; any uncommitted or untracked
    change yields a WorkingDirNotClean failure carrying that step's name
    and the list of offending files, never a Continue (success) outcome —
    the step succeeds exactly when the command succeeded, the status query
    worked and the tree was clean. -/
theorem migration_script_step_clean_check (step_name : String)
    (cmd_result : Except CommandError Unit) (git : GitStatusWorld) :
    (MigrationScriptStep.execute_step step_name cmd_result git =
        MigrationStepResult.success "migration-step" ↔
      cmd_result = Except.ok () ∧ git.open_ok = true ∧ git.files = [])
    ∧ (cmd_result = Except.ok () → git.open_ok = true → git.files ≠ [] →
        MigrationScriptStep.execute_step step_name cmd_result git =
          MigrationStepResult.failure "migration-step:untracked_files"
            (MigrationError.WorkingDirNotClean step_name git.files))
    ∧ (cmd_result = Except.ok () → git.files ≠ [] →
        (MigrationScriptStep.execute_step step_name cmd_result git).terminal = true
        ∧ (MigrationScriptStep.execute_step step_name cmd_result git).result ≠
            Except.ok ()) := by
  obtain ⟨op, files⟩ := git
  rcases cmd_result with e | u
  · simp [MigrationScriptStep.execute_step, MigrationStepResult.success,
      MigrationStepResult.success_with_result, MigrationStepResult.failure]
  · cases u
    cases op <;> cases files <;>
      simp [MigrationScriptStep.execute_step, RepoCheck.check_for_untracked_files,
        MigrationStepResult.success, MigrationStepResult.success_with_result,
        MigrationStepResult.failure]

/-- Concrete instance of `migration_script_step_clean_check`: a step named
    rename whose command exits 0 but leaves a.txt in the tree fails with
    WorkingDirNotClean. -/
theorem migration_script_step_clean_check_witness :
    MigrationScriptStep.execute_step "rename" (Except.ok ()) ⟨true, ["a.txt"]⟩ =
      MigrationStepResult.failure "migration-step:untracked_files"
        (MigrationError.WorkingDirNotClean "rename" ["a.txt"]) :=
  (migration_script_step_clean_check "rename" (Except.ok ()) ⟨true, ["a.txt"]⟩).2.1
    rfl rfl (by decide)

/-- C5: a pre-flight command exiting zero produces the non-terminal
    success result (the pipeline continues); any non-zero exit produces
    the terminal abort named pre-flight whose inner result is Ok, not an
    error; and the campaign error log contains exactly the collected
    results that carry errors, so no abort (inner result Ok) ever
    contributes an entry. -/
theorem preflight_and_error_log :
    (∀ args wd : String, ∀ st : ExitStatus, ∀ r : Except CommandError Unit,
      Workspace.run_command_successfully args wd st = some r →
        (st = some 0 →
          PreFlightCheckStep.execute_step r = MigrationStepResult.success "pre-flight"
          ∧ (PreFlightCheckStep.execute_step r).terminal = false)
        ∧ (∀ c : Int, st = some c → c ≠ 0 →
          PreFlightCheckStep.execute_step r = MigrationStepResult.abort "pre-flight"
          ∧ (PreFlightCheckStep.execute_step r).result = Except.ok ()
          ∧ (PreFlightCheckStep.execute_step r).terminal = true))
    ∧ (∀ results : List (String × MigrationStatus),
        error_log results =
          results.filterMap (fun p => (p.2.errorOf).map (fun e => (p.1, e))))
    ∧ (∀ results : List (String × MigrationStatus),
        (∀ p ∈ results, p.2.errorOf = none) → error_log results = [])
    ∧ (∀ nm : String,
        (MigrationStatus.EmptyResponse (MigrationStepResult.abort nm)).errorOf = none) := by
  refine ⟨?_, ?_, ?_, ?_⟩
  · intro args wd st r h
    rcases st with _ | c
    · exact absurd h (by simp [Workspace.run_command_successfully, ExitStatus.success])
    · by_cases hc : c = 0
      · subst hc
        have hval : Workspace.run_command_successfully args wd (some 0) =
            some (Except.ok ()) := by
          simp [Workspace.run_command_successfully, ExitStatus.success]
        have hr : r = Except.ok () := (Option.some_inj.mp (hval.symm.trans h)).symm
        subst hr
        constructor
        · intro _
          exact ⟨rfl, rfl⟩
        · intro d hd hdz
          exact absurd (Option.some_inj.mp hd).symm hdz
      · have hval : Workspace.run_command_successfully args wd (some c) =
            some (Except.error (CommandError.NonZeroExit args wd c)) := by
          simp [Workspace.run_command_successfully, ExitStatus.success, hc]
        have hr : r = Except.error (CommandError.NonZeroExit args wd c) :=
          (Option.some_inj.mp (hval.symm.trans h)).symm
        subst hr
        constructor
        · intro h0
          exact absurd (Option.some_inj.mp h0) hc
        · intro d _ _
          exact ⟨rfl, rfl, rfl⟩
  · intro results
    induction results with
    | nil => rfl
    | cons p rest ih =>
      obtain ⟨nm, st⟩ := p
      cases st with
      | PullRequest r =>
        rcases hres : r.result with e | v <;>
          simp [error_log, MigrationStatus.errorOf, hres, ih]
      | EmptyResponse r =>
        rcases hres : r.result with e | v <;>
          simp [error_log, MigrationStatus.errorOf, hres, ih]
  · intro results hall
    induction results with
    | nil => rfl
    | cons p rest ih =>
      obtain ⟨nm, st⟩ := p
      have hhd := hall (nm, st) (List.mem_cons_self _ _)
      have htl : ∀ q ∈ rest, q.2.errorOf = none := fun q hq =>
        hall q (List.mem_cons_of_mem _ hq)
      cases st with
      | PullRequest r =>
        rcases hres : r.result with e | v
        · exact absurd hhd (by simp [MigrationStatus.errorOf, hres])
        · simpa [error_log, hres] using ih htl
      | EmptyResponse r =>
        rcases hres : r.result with e | v
        · exact absurd hhd (by simp [MigrationStatus.errorOf, hres])
        · simpa [error_log, hres] using ih htl
  · intro nm
    rfl

/-- Concrete instance of `preflight_and_error_log`: a pre-flight command
    exiting 1 yields the abort result. -/
theorem preflight_and_error_log_witness :
    PreFlightCheckStep.execute_step
        (Except.error (CommandError.NonZeroExit "pf" "/w" 1)) =
      MigrationStepResult.abort "pre-flight" :=
  ((preflight_and_error_log.1 "pf" "/w" (some 1)
      (Except.error (CommandError.NonZeroExit "pf" "/w" 1)) (by decide)).2
    1 rfl (by decide)).1

/-- Every element of the full step-action list is a step action with an
    index inside the declared range. -/
theorem stepActions_mem_shape :
    ∀ (ss : List MigrationStepDefinition) (i : Nat) (a : PipelineAction),
      a ∈ stepActions i ss →
      ∃ j nm, a = PipelineAction.step j nm ∧ i ≤ j ∧ j < i + ss.length := by
  intro ss
  induction ss with
  | nil =>
    intro i a ha
    simp [stepActions] at ha
  | cons s rest ih =>
    intro i a ha
    rw [stepActions] at ha
    rcases List.mem_cons.mp ha with h | h
    · exact ⟨i, s.name, h, le_refl i, by simp⟩
    · obtain ⟨j, nm, rfl, hij, hlt⟩ := ih (i + 1) a h
      exact ⟨j, nm, rfl, by omega, by simp only [List.length_cons]; omega⟩

/-- The trace of the step loop is an initial segment of the full
    step-action list. -/
theorem run_steps_trace_take (w : PipelineWorld) :
    ∀ (ss : List MigrationStepDefinition) (i : Nat),
      ∃ k, k ≤ ss.length ∧ (run_steps w i ss).2 = (stepActions i ss).take k := by
  intro ss
  induction ss with
  | nil => intro i; exact ⟨0, by simp, rfl⟩
  | cons s rest ih =>
    intro i
    by_cases h : w.step_ok i = true
    · obtain ⟨k, hk, htr⟩ := ih (i + 1)
      refine ⟨k + 1, by simpa using Nat.succ_le_succ hk, ?_⟩
      simp [run_steps, stepActions, h, htr]
    · refine ⟨1, by simp, ?_⟩
      simp [run_steps, stepActions, h]

/-- Every element of the step-loop trace is a step action with an index
    inside the declared range. -/
theorem run_steps_mem_shape (w : PipelineWorld)
    (ss : List MigrationStepDefinition) (i : Nat) (a : PipelineAction)
    (ha : a ∈ (run_steps w i ss).2) :
    ∃ j nm, a = PipelineAction.step j nm ∧ i ≤ j ∧ j < i + ss.length := by
  obtain ⟨k, _, htr⟩ := run_steps_trace_take w ss i
  rw [htr] at ha
  exact stepActions_mem_shape ss i a (List.mem_of_mem_take ha)

/-- The step loop reports no failing step exactly when every declared
    step's command succeeds. -/
theorem run_steps_result_none (w : PipelineWorld) :
    ∀ (ss : List MigrationStepDefinition) (i : Nat),
      ((run_steps w i ss).1 = none ↔
        ∀ j, j < ss.length → w.step_ok (i + j) = true) := by
  intro ss
  induction ss with
  | nil => intro i; simp [run_steps]
  | cons s rest ih =>
    intro i
    by_cases h : w.step_ok i = true
    · rw [run_steps]
      simp only [h, if_true]
      rw [ih (i + 1)]
      constructor
      · intro hall j hj
        cases j with
        | zero => simpa using h
        | succ j' =>
          have hj' : j' < rest.length := by
            simp only [List.length_cons] at hj
            omega
          have := hall j' hj'
          have harith : i + 1 + j' = i + (j' + 1) := by omega
          rwa [harith] at this
      · intro hall j hj
        have hjs : j + 1 < (s :: rest).length := by
          simp only [List.length_cons]
          omega
        have := hall (j + 1) hjs
        have harith : i + (j + 1) = i + 1 + j := by omega
        rwa [harith] at this
    · rw [run_steps]
      simp only [h, if_false, Bool.false_eq_true]
      constructor
      · intro hsome
        cases hsome
      · intro hall
        have := hall 0 (by simp)
        simp only [Nat.add_zero] at this
        exact absurd this h

/-- When no step fails the step-loop trace is the full step-action
    list. -/
theorem run_steps_trace_of_none (w : PipelineWorld) :
    ∀ (ss : List MigrationStepDefinition) (i : Nat),
      (run_steps w i ss).1 = none → (run_steps w i ss).2 = stepActions i ss := by
  intro ss
  induction ss with
  | nil => intro i _; rfl
  | cons s rest ih =>
    intro i hnone
    by_cases h : w.step_ok i = true
    · rw [run_steps] at hnone ⊢
      simp only [h, if_true] at hnone ⊢
      rw [stepActions, ih (i + 1) hnone]
    · rw [run_steps] at hnone
      simp only [h, if_false, Bool.false_eq_true] at hnone
      cases hnone

/-- A failing step action in the step-loop trace is its last action: no
    trace element has a later phase. -/
theorem run_steps_fail_last (w : PipelineWorld) (n : Nat) :
    ∀ (ss : List MigrationStepDefinition) (i : Nat) (a : PipelineAction),
      a ∈ (run_steps w i ss).2 → w.failsAt a = true →
      ∀ b ∈ (run_steps w i ss).2,
        PipelineAction.phase n b ≤ PipelineAction.phase n a := by
  intro ss
  induction ss with
  | nil =>
    intro i a ha
    simp [run_steps] at ha
  | cons s rest ih =>
    intro i a ha hfail b hb
    by_cases h : w.step_ok i = true
    · rw [run_steps] at ha hb
      simp only [h, if_true] at ha hb
      rcases List.mem_cons.mp ha with rfl | ha'
      · exact absurd hfail (by simp [PipelineWorld.failsAt, h])
      · rcases List.mem_cons.mp hb with rfl | hb'
        · obtain ⟨j, nm, rfl, hij, _⟩ := run_steps_mem_shape w rest (i + 1) a ha'
          simp only [PipelineAction.phase]
          omega
        · exact ih (i + 1) a ha' hfail b hb'
    · rw [run_steps] at ha hb
      simp only [h, if_false, Bool.false_eq_true, List.mem_singleton] at ha hb
      subst ha
      subst hb
      exact le_refl _

/-- The length of the full step-action list equals the number of steps. -/
theorem stepActions_length :
    ∀ (ss : List MigrationStepDefinition) (i : Nat),
      (stepActions i ss).length = ss.length := by
  intro ss
  induction ss with
  | nil => intro i; rfl
  | cons s rest ih => intro i; simp [stepActions, ih (i + 1)]

/-- The full step-action list has strictly increasing phases. -/
theorem stepActions_pairwise (n : Nat) :
    ∀ (ss : List MigrationStepDefinition) (i : Nat),
      List.Pairwise
        (fun a b => PipelineAction.phase n a < PipelineAction.phase n b)
        (stepActions i ss) := by
  intro ss
  induction ss with
  | nil => intro i; simp [stepActions]
  | cons s rest ih =>
    intro i
    rw [stepActions]
    refine List.Pairwise.cons ?_ (ih (i + 1))
    intro b hb
    obtain ⟨j, nm, rfl, hij, _⟩ := stepActions_mem_shape rest (i + 1) b hb
    simp only [PipelineAction.phase]
    omega

/-- The trace of the migration-script stage is exactly the step-loop
    trace: the status check emits no external action. -/
theorem run_migration_script_trace (task : MigrationTask) (w : PipelineWorld) :
    (run_migration_script task w).2 = (run_steps w 0 task.steps).2 := by
  rw [run_migration_script]
  rcases h : (run_steps w 0 task.steps).1 with _ | nm
  · rcases hro : w.repo_open_ok <;> rcases hfe : w.status_files.isEmpty <;> rfl
  · rfl

/-- The publish trace of `prepair_pr` is determined by the task alone:
    the forge call is performed whether or not it then fails. -/
theorem prepair_pr_publish_trace (task : MigrationTask) (w : PipelineWorld) :
    (prepair_pr_publish task w).2 = pubActions task := by
  rw [prepair_pr_publish, pubActions]
  rcases h : task.pull_request with _ | pr
  · rcases hpr : task.execution_opts.is_pr_enabled <;>
      rcases hc : w.create_result with _ | out <;> rfl
  · rcases hu : w.update_result with _ | out <;> rfl

/-- The trace of `prepair_pr`: the push action exactly when pushing is
    enabled (stopping there when the push fails), then the publish
    actions. -/
theorem prepair_pr_trace (task : MigrationTask) (w : PipelineWorld) :
    (prepair_pr task w).2 =
      (if task.execution_opts.is_push_enabled then
        (if w.push_ok then PipelineAction.push :: pubActions task
          else [PipelineAction.push])
      else pubActions task) := by
  by_cases hp : task.execution_opts.is_push_enabled = true
  · by_cases ho : w.push_ok = true
    · simp [prepair_pr, hp, ho, prepair_pr_publish_trace]
    · simp [prepair_pr, hp, ho]
  · simp [prepair_pr, hp, prepair_pr_publish_trace]

/-- Every publish action is a publish. -/
theorem pubActions_mem (task : MigrationTask) :
    ∀ a ∈ pubActions task, ∃ k, a = PipelineAction.publish k := by
  intro a ha
  rw [pubActions] at ha
  rcases h : task.pull_request with _ | pr
  · rw [h] at ha
    by_cases hb : task.execution_opts.is_pr_enabled = true
    · simp [hb] at ha
      exact ⟨PublishKind.create, ha⟩
    · simp [hb] at ha
  · rw [h] at ha
    simp at ha
    exact ⟨PublishKind.update, ha⟩

/-- The step loop of the all-success world reports no failure. -/
theorem run_steps_allOk_none (ss : List MigrationStepDefinition) :
    (run_steps PipelineWorld.allOk 0 ss).1 = none :=
  (run_steps_result_none PipelineWorld.allOk ss 0).mpr (fun _ _ => rfl)

/-- The migration-script stage of the all-success world succeeds. -/
theorem run_migration_script_allOk (task : MigrationTask) :
    (run_migration_script task PipelineWorld.allOk).1 = Except.ok ThisResult.Ok := by
  rw [run_migration_script, run_steps_allOk_none task.steps]
  rfl

/-- The trace of a fully successful run: clone, pre-flight, every step in
    declared order, then (unless dry-run) the push when enabled and the
    publish calls. -/
theorem run_migration_task_allOk_trace (task : MigrationTask) :
    (run_migration_task task PipelineWorld.allOk).2 =
      PipelineAction.clone :: PipelineAction.preflight :: stepActions 0 task.steps ++
        (if task.execution_opts.dry_run then []
         else if task.execution_opts.is_push_enabled then
           PipelineAction.push :: pubActions task
         else pubActions task) := by
  have htr : (run_migration_script task PipelineWorld.allOk).2 = stepActions 0 task.steps := by
    rw [run_migration_script_trace,
      run_steps_trace_of_none PipelineWorld.allOk task.steps 0 (run_steps_allOk_none task.steps)]
  have h1 : PipelineWorld.allOk.canonicalize_ok = true := rfl
  have h2 : PipelineWorld.allOk.extract_ok = true := rfl
  have h3 : PipelineWorld.allOk.workspace_new_ok = true := rfl
  have h4 : PipelineWorld.allOk.clone_ok = true := rfl
  have h5 : PipelineWorld.allOk.preflight_ok = true := rfl
  rw [run_migration_task]
  simp only [h1, h2, h3, h4, h5, run_migration_script_allOk, htr]
  norm_num
  cases hdry : task.execution_opts.dry_run with
  | true => simp
  | false =>
    simp only [Bool.false_eq_true, if_false, if_true]
    have hptr : (prepair_pr task PipelineWorld.allOk).2 =
        (if task.execution_opts.is_push_enabled then
          PipelineAction.push :: pubActions task
        else pubActions task) := by
      rw [prepair_pr_trace]
      have hpo : PipelineWorld.allOk.push_ok = true := rfl
      simp [hpo]
    rcases hpp : (prepair_pr task PipelineWorld.allOk).1 with e | p <;>
      simp [hptr]

/-- The phase of every publish action is the final one. -/
theorem pubActions_phase (task : MigrationTask) (n : Nat) :
    ∀ b ∈ pubActions task, PipelineAction.phase n b = 3 + n := by
  intro b hb
  obtain ⟨k, rfl⟩ := pubActions_mem task b hb
  rfl

/-- The publish action list is pairwise increasing (it has at most one
    element). -/
theorem pubActions_pairwise (task : MigrationTask) (n : Nat) :
    List.Pairwise
      (fun a b => PipelineAction.phase n a < PipelineAction.phase n b)
      (pubActions task) := by
  rw [pubActions]
  rcases h : task.pull_request with _ | pr
  · by_cases hb : task.execution_opts.is_pr_enabled = true <;> simp [hb]
  · simp

/-- Phases strictly increase along the trace of a fully successful
    run. -/
theorem run_migration_task_allOk_pairwise (task : MigrationTask) :
    List.Pairwise
      (fun a b => PipelineAction.phase task.steps.length a <
        PipelineAction.phase task.steps.length b)
      (run_migration_task task PipelineWorld.allOk).2 := by
  rw [run_migration_task_allOk_trace]
  have hstep_mem : ∀ b ∈ stepActions 0 task.steps,
      ∃ j, 2 + j = PipelineAction.phase task.steps.length b ∧ j < task.steps.length := by
    intro b hb
    obtain ⟨j, nm, rfl, _, hj⟩ := stepActions_mem_shape task.steps 0 b hb
    exact ⟨j, rfl, by omega⟩
  have htail_mem : ∀ b ∈ (if task.execution_opts.dry_run then ([] : List PipelineAction)
      else if task.execution_opts.is_push_enabled then
        PipelineAction.push :: pubActions task
      else pubActions task),
      2 + task.steps.length ≤ PipelineAction.phase task.steps.length b := by
    intro b hb
    rcases hdry : task.execution_opts.dry_run
    · rw [hdry] at hb
      simp only [Bool.false_eq_true, if_false] at hb
      rcases hpe : task.execution_opts.is_push_enabled
      · rw [hpe] at hb
        simp only [Bool.false_eq_true, if_false] at hb
        rw [pubActions_phase task _ b hb]
        omega
      · rw [hpe] at hb
        simp only [if_true] at hb
        rcases List.mem_cons.mp hb with rfl | hb'
        · simp [PipelineAction.phase]
        · rw [pubActions_phase task _ b hb']
          omega
    · rw [hdry] at hb
      simp at hb
  have htail_pw : List.Pairwise
      (fun a b => PipelineAction.phase task.steps.length a <
        PipelineAction.phase task.steps.length b)
      (if task.execution_opts.dry_run then ([] : List PipelineAction)
      else if task.execution_opts.is_push_enabled then
        PipelineAction.push :: pubActions task
      else pubActions task) := by
    rcases hdry : task.execution_opts.dry_run
    · simp only [Bool.false_eq_true, if_false]
      rcases hpe : task.execution_opts.is_push_enabled
      · simp only [Bool.false_eq_true, if_false]
        exact pubActions_pairwise task _
      · simp only [if_true]
        refine List.Pairwise.cons ?_ (pubActions_pairwise task _)
        intro b hb
        rw [pubActions_phase task _ b hb]
        simp [PipelineAction.phase]
    · simp
  have hc0 : PipelineAction.phase task.steps.length PipelineAction.clone = 0 := rfl
  have hp1 : PipelineAction.phase task.steps.length PipelineAction.preflight = 1 := rfl
  refine List.Pairwise.cons ?_ (List.Pairwise.cons ?_ ?_)
  · intro b hb
    rcases List.mem_cons.mp hb with rfl | hb'
    · simp [PipelineAction.phase]
    · rcases List.mem_append.mp hb' with hbs | hbt
      · obtain ⟨j, hj, _⟩ := hstep_mem b hbs
        omega
      · have := htail_mem b hbt
        omega
  · intro b hb
    rcases List.mem_append.mp hb with hbs | hbt
    · obtain ⟨j, hj, _⟩ := hstep_mem b hbs
      omega
    · have := htail_mem b hbt
      omega
  · refine List.pairwise_append.mpr
      ⟨stepActions_pairwise task.steps.length task.steps 0, htail_pw, ?_⟩
    intro a ha b hb
    obtain ⟨j, hj, hjlt⟩ := hstep_mem a ha
    have := htail_mem b hb
    omega

/-- Any run's trace is an initial segment of the fully successful run's
    trace: the pipeline never performs an action the successful run would
    not perform, and never reorders them. -/
theorem run_migration_task_trace_take (task : MigrationTask) (w : PipelineWorld) :
    ∃ k, (run_migration_task task w).2 =
      ((run_migration_task task PipelineWorld.allOk).2).take k := by
  have htake2 : ∀ (x y : PipelineAction) (l : List PipelineAction) (m : Nat),
      (x :: y :: l).take (m + 2) = x :: y :: l.take m := fun x y l m => rfl
  have htake_all : ∀ tail : List PipelineAction,
      (stepActions 0 task.steps ++ tail).take task.steps.length =
        stepActions 0 task.steps := by
    intro tail
    have hlen : task.steps.length ≤ (stepActions 0 task.steps).length := by
      rw [stepActions_length]
    rw [List.take_append_of_le_length hlen, ← stepActions_length task.steps 0,
      List.take_length]
  rw [run_migration_task_allOk_trace]
  cases hcan : w.canonicalize_ok with
  | false => exact ⟨0, by simp [run_migration_task, hcan]⟩
  | true =>
  cases hext : w.extract_ok with
  | false => exact ⟨0, by simp [run_migration_task, hcan, hext]⟩
  | true =>
  cases hws : w.workspace_new_ok with
  | false => exact ⟨0, by simp [run_migration_task, hcan, hext, hws]⟩
  | true =>
  cases hcl : w.clone_ok with
  | false => exact ⟨1, by simp [run_migration_task, hcan, hext, hws, hcl]⟩
  | true =>
  cases hpf : w.preflight_ok with
  | false => exact ⟨2, by simp [run_migration_task, hcan, hext, hws, hcl, hpf]⟩
  | true =>
  simp only [run_migration_task, hcan, hext, hws, hcl, hpf]
  norm_num
  rcases hms : (run_steps w 0 task.steps).1 with _ | nm
  · -- every step command succeeded
    have hscr2 : (run_migration_script task w).2 = stepActions 0 task.steps := by
      rw [run_migration_script_trace, run_steps_trace_of_none w task.steps 0 hms]
    cases hro : w.repo_open_ok with
    | false =>
      have hs1 : (run_migration_script task w).1 = Except.error MigrationError.AnyHowError := by
        rw [run_migration_script, hms]
        simp [hro]
      refine ⟨task.steps.length + 2, ?_⟩
      simp only [hs1]
      rw [hscr2, htake2, htake_all]
    | true =>
    cases hfe : w.status_files.isEmpty with
    | false =>
      have hs1 : (run_migration_script task w).1 =
          Except.ok (ThisResult.ExpectedError
            (ExpectedResults.WorkingDirNotClean w.status_files)) := by
        rw [run_migration_script, hms]
        simp [hro, hfe]
      refine ⟨task.steps.length + 2, ?_⟩
      simp only [hs1]
      rw [hscr2, htake2, htake_all]
    | true =>
    have hs1 : (run_migration_script task w).1 = Except.ok ThisResult.Ok := by
      rw [run_migration_script, hms]
      simp [hro, hfe]
    cases hdry : task.execution_opts.dry_run with
    | true =>
      simp only [hs1, hdry]
      norm_num
      refine ⟨task.steps.length + 2, ?_⟩
      rw [hscr2, htake2, ← stepActions_length task.steps 0, List.take_length]
    | false =>
      simp only [hs1, hdry]
      norm_num
      have hptr := prepair_pr_trace task w
      cases hpe : task.execution_opts.is_push_enabled with
      | false =>
        simp only [hpe, Bool.false_eq_true, if_false] at hptr ⊢
        rcases hpp : (prepair_pr task w).1 with e | p <;>
        · refine ⟨(PipelineAction.clone :: PipelineAction.preflight ::
              (stepActions 0 task.steps ++ pubActions task)).length, ?_⟩
          rw [List.take_length]
          simp [hscr2, hptr]
      | true =>
        simp only [hpe, if_true] at hptr ⊢
        cases hpo : w.push_ok with
        | true =>
          simp only [hpo, if_true] at hptr
          rcases hpp : (prepair_pr task w).1 with e | p <;>
          · refine ⟨(PipelineAction.clone :: PipelineAction.preflight ::
                (stepActions 0 task.steps ++
                  PipelineAction.push :: pubActions task)).length, ?_⟩
            rw [List.take_length]
            simp [hscr2, hptr]
        | false =>
          simp only [hpo, Bool.false_eq_true, if_false] at hptr
          rcases hpp : (prepair_pr task w).1 with e | p <;>
          · refine ⟨task.steps.length + 1 + 2, ?_⟩
            rw [htake2, hscr2, hptr,
              show task.steps.length = (stepActions 0 task.steps).length from
                (stepActions_length task.steps 0).symm,
              List.take_append]
            simp
  · -- a step command failed
    obtain ⟨kk, hkk, htk⟩ := run_steps_trace_take w task.steps 0
    have hs1 : (run_migration_script task w).1 =
        Except.ok (ThisResult.ExpectedError (ExpectedResults.MigrationFailed nm)) := by
      rw [run_migration_script, hms]
    have hscr2 : (run_migration_script task w).2 =
        (stepActions 0 task.steps).take kk := by
      rw [run_migration_script_trace, htk]
    refine ⟨kk + 2, ?_⟩
    simp only [hs1]
    rw [hscr2, htake2,
      List.take_append_of_le_length (by rw [stepActions_length]; exact hkk)]

/-- A failing action in a run's trace is its last action: every action of
    the trace has a phase no later than the failing one, so nothing runs
    past the first failure. -/
theorem run_migration_task_fail_last (task : MigrationTask) (w : PipelineWorld) :
    ∀ a ∈ (run_migration_task task w).2, w.failsAt a = true →
    ∀ b ∈ (run_migration_task task w).2,
      PipelineAction.phase task.steps.length b ≤
        PipelineAction.phase task.steps.length a := by
  have hb_bound : ∀ (tail : List PipelineAction) (m : Nat),
      (∀ x ∈ tail, PipelineAction.phase task.steps.length x ≤ m) →
      2 + task.steps.length ≤ m →
      ∀ b ∈ PipelineAction.clone :: PipelineAction.preflight ::
        (stepActions 0 task.steps ++ tail),
        PipelineAction.phase task.steps.length b ≤ m := by
    intro tail m htail hm b hb
    rcases List.mem_cons.mp hb with rfl | hb1
    · have h0 : PipelineAction.phase task.steps.length PipelineAction.clone = 0 := rfl
      omega
    rcases List.mem_cons.mp hb1 with rfl | hb2
    · have h1 : PipelineAction.phase task.steps.length PipelineAction.preflight = 1 := rfl
      omega
    rcases List.mem_append.mp hb2 with hbs | hbt
    · obtain ⟨j, nm2, rfl, _, hj⟩ := stepActions_mem_shape task.steps 0 b hbs
      have h2 : PipelineAction.phase task.steps.length (PipelineAction.step j nm2) =
          2 + j := rfl
      omega
    · exact htail b hbt
  cases hcan : w.canonicalize_ok with
  | false => intro a ha; simp [run_migration_task, hcan] at ha
  | true =>
  cases hext : w.extract_ok with
  | false => intro a ha; simp [run_migration_task, hcan, hext] at ha
  | true =>
  cases hws : w.workspace_new_ok with
  | false => intro a ha; simp [run_migration_task, hcan, hext, hws] at ha
  | true =>
  cases hcl : w.clone_ok with
  | false =>
    intro a ha hfail b hb
    simp [run_migration_task, hcan, hext, hws, hcl] at ha hb
    subst ha
    subst hb
    exact le_refl _
  | true =>
  cases hpf : w.preflight_ok with
  | false =>
    intro a ha hfail b hb
    simp [run_migration_task, hcan, hext, hws, hcl, hpf] at ha hb
    rcases ha with rfl | rfl
    · simp [PipelineWorld.failsAt, hcl] at hfail
    · rcases hb with rfl | rfl
      · simp [PipelineAction.phase]
      · exact le_refl _
  | true =>
  simp only [run_migration_task, hcan, hext, hws, hcl, hpf]
  norm_num
  rcases hms : (run_steps w 0 task.steps).1 with _ | nm
  · -- every step command succeeded
    have hstep_all := (run_steps_result_none w task.steps 0).mp hms
    have hstep_nofail : ∀ x ∈ stepActions 0 task.steps, w.failsAt x = false := by
      intro x hx
      obtain ⟨j, nm2, rfl, _, hj⟩ := stepActions_mem_shape task.steps 0 x hx
      have hok := hstep_all j (by omega)
      rw [Nat.zero_add] at hok
      simp [PipelineWorld.failsAt, hok]
    have hscr2 : (run_migration_script task w).2 = stepActions 0 task.steps := by
      rw [run_migration_script_trace, run_steps_trace_of_none w task.steps 0 hms]
    have hnofail_trace0 : ∀ a ∈ PipelineAction.clone :: PipelineAction.preflight ::
        stepActions 0 task.steps, w.failsAt a = false := by
      intro a ha
      rcases List.mem_cons.mp ha with rfl | ha1
      · simp [PipelineWorld.failsAt, hcl]
      rcases List.mem_cons.mp ha1 with rfl | ha2
      · simp [PipelineWorld.failsAt, hpf]
      · exact hstep_nofail a ha2
    cases hro : w.repo_open_ok with
    | false =>
      have hs1 : (run_migration_script task w).1 =
          Except.error MigrationError.AnyHowError := by
        rw [run_migration_script, hms]
        simp [hro]
      simp only [hs1, hscr2]
      intro a ha hfail b hb
      rw [hnofail_trace0 a ha] at hfail
      cases hfail
    | true =>
    cases hfe : w.status_files.isEmpty with
    | false =>
      have hs1 : (run_migration_script task w).1 =
          Except.ok (ThisResult.ExpectedError
            (ExpectedResults.WorkingDirNotClean w.status_files)) := by
        rw [run_migration_script, hms]
        simp [hro, hfe]
      simp only [hs1, hscr2]
      intro a ha hfail b hb
      rw [hnofail_trace0 a ha] at hfail
      cases hfail
    | true =>
    have hs1 : (run_migration_script task w).1 = Except.ok ThisResult.Ok := by
      rw [run_migration_script, hms]
      simp [hro, hfe]
    cases hdry : task.execution_opts.dry_run with
    | true =>
      simp only [hs1, hdry]
      rw [if_neg (by simp : ¬((true : Bool) = false))]
      intro a ha hfail b hb
      rw [hscr2] at ha
      rw [hnofail_trace0 a ha] at hfail
      cases hfail
    | false =>
      simp only [hs1, hdry]
      rw [if_pos trivial]
      have hptr := prepair_pr_trace task w
      have hmain : ∀ a ∈ PipelineAction.clone :: PipelineAction.preflight ::
          ((run_migration_script task w).2 ++ (prepair_pr task w).2),
          w.failsAt a = true →
          ∀ b ∈ PipelineAction.clone :: PipelineAction.preflight ::
            ((run_migration_script task w).2 ++ (prepair_pr task w).2),
            PipelineAction.phase task.steps.length b ≤
              PipelineAction.phase task.steps.length a := by
        rw [hscr2, hptr]
        cases hpe : task.execution_opts.is_push_enabled with
        | false =>
          simp only [hpe, Bool.false_eq_true, if_false]
          intro a ha hfail b hb
          rcases List.mem_cons.mp ha with rfl | ha1
          · simp [PipelineWorld.failsAt, hcl] at hfail
          rcases List.mem_cons.mp ha1 with rfl | ha2
          · simp [PipelineWorld.failsAt, hpf] at hfail
          rcases List.mem_append.mp ha2 with has | hat
          · rw [hstep_nofail a has] at hfail
            cases hfail
          · obtain ⟨k, rfl⟩ := pubActions_mem task a hat
            have hpa : PipelineAction.phase task.steps.length
                (PipelineAction.publish k) = 3 + task.steps.length := rfl
            rw [hpa]
            refine hb_bound (pubActions task) (3 + task.steps.length) ?_ (by omega) b hb
            intro x hx
            rw [pubActions_phase task _ x hx]
        | true =>
          simp only [hpe, if_true]
          cases hpo : w.push_ok with
          | true =>
            simp only [hpo, if_true]
            intro a ha hfail b hb
            rcases List.mem_cons.mp ha with rfl | ha1
            · simp [PipelineWorld.failsAt, hcl] at hfail
            rcases List.mem_cons.mp ha1 with rfl | ha2
            · simp [PipelineWorld.failsAt, hpf] at hfail
            rcases List.mem_append.mp ha2 with has | hat
            · rw [hstep_nofail a has] at hfail
              cases hfail
            rcases List.mem_cons.mp hat with rfl | hat2
            · simp [PipelineWorld.failsAt, hpo] at hfail
            · obtain ⟨k, rfl⟩ := pubActions_mem task a hat2
              have hpa : PipelineAction.phase task.steps.length
                  (PipelineAction.publish k) = 3 + task.steps.length := rfl
              rw [hpa]
              refine hb_bound (PipelineAction.push :: pubActions task)
                (3 + task.steps.length) ?_ (by omega) b hb
              intro x hx
              rcases List.mem_cons.mp hx with rfl | hx2
              · have : PipelineAction.phase task.steps.length PipelineAction.push =
                    2 + task.steps.length := rfl
                omega
              · rw [pubActions_phase task _ x hx2]
          | false =>
            simp only [hpo, Bool.false_eq_true, if_false]
            intro a ha hfail b hb
            rcases List.mem_cons.mp ha with rfl | ha1
            · simp [PipelineWorld.failsAt, hcl] at hfail
            rcases List.mem_cons.mp ha1 with rfl | ha2
            · simp [PipelineWorld.failsAt, hpf] at hfail
            rcases List.mem_append.mp ha2 with has | hat
            · rw [hstep_nofail a has] at hfail
              cases hfail
            rcases List.mem_singleton.mp hat with rfl
            have hpa : PipelineAction.phase task.steps.length PipelineAction.push =
                2 + task.steps.length := rfl
            rw [hpa]
            refine hb_bound [PipelineAction.push] (2 + task.steps.length) ?_ (by omega) b hb
            intro x hx
            rcases List.mem_singleton.mp hx with rfl
            exact le_of_eq hpa
      rcases hpp : (prepair_pr task w).1 with e | p <;> exact hmain
  · -- a step command failed
    have hs1 : (run_migration_script task w).1 =
        Except.ok (ThisResult.ExpectedError (ExpectedResults.MigrationFailed nm)) := by
      rw [run_migration_script, hms]
    simp only [hs1, run_migration_script_trace]
    intro a ha hfail b hb
    rcases List.mem_cons.mp ha with rfl | ha1
    · simp [PipelineWorld.failsAt, hcl] at hfail
    rcases List.mem_cons.mp ha1 with rfl | ha2
    · simp [PipelineWorld.failsAt, hpf] at hfail
    obtain ⟨j, nm2, haeq, _, hj⟩ := run_steps_mem_shape w task.steps 0 a ha2
    rcases List.mem_cons.mp hb with rfl | hb1
    · subst haeq
      have h0 : PipelineAction.phase task.steps.length PipelineAction.clone = 0 := rfl
      have h2 : PipelineAction.phase task.steps.length (PipelineAction.step j nm2) =
          2 + j := rfl
      omega
    rcases List.mem_cons.mp hb1 with rfl | hb2
    · subst haeq
      have h1 : PipelineAction.phase task.steps.length PipelineAction.preflight = 1 := rfl
      have h2 : PipelineAction.phase task.steps.length (PipelineAction.step j nm2) =
          2 + j := rfl
      omega
    · exact run_steps_fail_last w task.steps.length task.steps 0 a ha2 hfail b hb2

/-- The pipeline outcome pinned to the end of the trace: a dirty-tree
    WorkingDirNotClean failure or a failing status query leaves a trace
    that ends exactly with the last migration step, and every outcome
    other than a published pull request or a push/publish-stage error has
    a trace of early actions only — no push and no forge call. -/
theorem run_migration_task_outcome_trace (task : MigrationTask) (w : PipelineWorld) :
    (∀ files, (run_migration_task task w).1 =
        Except.ok (ExpectedResults.WorkingDirNotClean files) →
      (run_migration_task task w).2 =
        PipelineAction.clone :: PipelineAction.preflight :: stepActions 0 task.steps)
    ∧ ((run_migration_task task w).1 = Except.error MigrationError.AnyHowError →
      (run_migration_task task w).2 =
        PipelineAction.clone :: PipelineAction.preflight :: stepActions 0 task.steps)
    ∧ ((∀ p, (run_migration_task task w).1 ≠
          Except.ok (ExpectedResults.PullRequest p)) →
      (run_migration_task task w).1 ≠
        Except.error MigrationError.UnableToCreatePullRequest →
      ∀ x ∈ (run_migration_task task w).2, x.isEarly = true) := by
  have hearly0 : ∀ x ∈ PipelineAction.clone :: PipelineAction.preflight ::
      (run_steps w 0 task.steps).2, x.isEarly = true := by
    intro x hx
    rcases List.mem_cons.mp hx with rfl | hx1
    · rfl
    rcases List.mem_cons.mp hx1 with rfl | hx2
    · rfl
    obtain ⟨j, nm2, rfl, _, _⟩ := run_steps_mem_shape w task.steps 0 x hx2
    rfl
  have hearly1 : ∀ x ∈ PipelineAction.clone :: PipelineAction.preflight ::
      stepActions 0 task.steps, x.isEarly = true := by
    intro x hx
    rcases List.mem_cons.mp hx with rfl | hx1
    · rfl
    rcases List.mem_cons.mp hx1 with rfl | hx2
    · rfl
    obtain ⟨j, nm2, rfl, _, _⟩ := stepActions_mem_shape task.steps 0 x hx2
    rfl
  cases hcan : w.canonicalize_ok with
  | false =>
    have hrun : run_migration_task task w = (Except.error MigrationError.IoError, []) := by
      simp [run_migration_task, hcan]
    rw [hrun]
    refine ⟨?_, ?_, ?_⟩
    · intro files h
      simp at h
    · intro h
      simp at h
    · intro _ _ x hx
      simp at hx
  | true =>
  cases hext : w.extract_ok with
  | false =>
    have hrun : run_migration_task task w =
        (Except.error MigrationError.InvalidGitRepo, []) := by
      simp [run_migration_task, hcan, hext]
    rw [hrun]
    refine ⟨?_, ?_, ?_⟩
    · intro files h
      simp at h
    · intro h
      simp at h
    · intro _ _ x hx
      simp at hx
  | true =>
  cases hws : w.workspace_new_ok with
  | false =>
    have hrun : run_migration_task task w = (Except.error MigrationError.IoError, []) := by
      simp [run_migration_task, hcan, hext, hws]
    rw [hrun]
    refine ⟨?_, ?_, ?_⟩
    · intro files h
      simp at h
    · intro h
      simp at h
    · intro _ _ x hx
      simp at hx
  | true =>
  cases hcl : w.clone_ok with
  | false =>
    have hrun : run_migration_task task w =
        (Except.error (MigrationError.UnableToCheckoutRepo task.repo),
          [PipelineAction.clone]) := by
      simp [run_migration_task, hcan, hext, hws, hcl]
    rw [hrun]
    refine ⟨?_, ?_, ?_⟩
    · intro files h
      simp at h
    · intro h
      simp at h
    · intro _ _ x hx
      rcases List.mem_singleton.mp hx with rfl
      rfl
  | true =>
  cases hpf : w.preflight_ok with
  | false =>
    have hrun : run_migration_task task w =
        (Except.ok ExpectedResults.PreFlightCheckFailed,
          [PipelineAction.clone, PipelineAction.preflight]) := by
      simp [run_migration_task, hcan, hext, hws, hcl, hpf]
    rw [hrun]
    refine ⟨?_, ?_, ?_⟩
    · intro files h
      simp at h
    · intro h
      simp at h
    · intro _ _ x hx
      rcases List.mem_cons.mp hx with rfl | hx1
      · rfl
      rcases List.mem_singleton.mp hx1 with rfl
      rfl
  | true =>
  rcases hms : (run_steps w 0 task.steps).1 with _ | nm
  · -- every step command succeeded
    have hscr2 : (run_migration_script task w).2 = stepActions 0 task.steps := by
      rw [run_migration_script_trace, run_steps_trace_of_none w task.steps 0 hms]
    cases hro : w.repo_open_ok with
    | false =>
      have hs1 : (run_migration_script task w).1 =
          Except.error MigrationError.AnyHowError := by
        rw [run_migration_script, hms]
        simp [hro]
      have hrun : run_migration_task task w =
          (Except.error MigrationError.AnyHowError,
            PipelineAction.clone :: PipelineAction.preflight ::
              stepActions 0 task.steps) := by
        simp only [run_migration_task, hcan, hext, hws, hcl, hpf]
        norm_num
        simp only [hs1, hscr2]
      rw [hrun]
      refine ⟨?_, ?_, ?_⟩
      · intro files h
        simp at h
      · intro _
        rfl
      · intro _ _
        exact hearly1
    | true =>
    cases hfe : w.status_files.isEmpty with
    | false =>
      have hs1 : (run_migration_script task w).1 =
          Except.ok (ThisResult.ExpectedError
            (ExpectedResults.WorkingDirNotClean w.status_files)) := by
        rw [run_migration_script, hms]
        simp [hro, hfe]
      have hrun : run_migration_task task w =
          (Except.ok (ExpectedResults.WorkingDirNotClean w.status_files),
            PipelineAction.clone :: PipelineAction.preflight ::
              stepActions 0 task.steps) := by
        simp only [run_migration_task, hcan, hext, hws, hcl, hpf]
        norm_num
        simp only [hs1, hscr2]
      rw [hrun]
      refine ⟨?_, ?_, ?_⟩
      · intro files _
        rfl
      · intro h
        simp at h
      · intro _ _
        exact hearly1
    | true =>
      have hs1 : (run_migration_script task w).1 = Except.ok ThisResult.Ok := by
        rw [run_migration_script, hms]
        simp [hro, hfe]
      cases hdry : task.execution_opts.dry_run with
      | true =>
        have hrun : run_migration_task task w =
            (Except.ok ExpectedResults.DryRun,
              PipelineAction.clone :: PipelineAction.preflight ::
                stepActions 0 task.steps) := by
          simp only [run_migration_task, hcan, hext, hws, hcl, hpf]
          norm_num
          simp only [hs1, hdry]
          rw [if_neg (by simp : ¬((true : Bool) = false))]
          simp only [hscr2]
        rw [hrun]
        refine ⟨?_, ?_, ?_⟩
        · intro files h
          simp at h
        · intro h
          simp at h
        · intro _ _
          exact hearly1
      | false =>
        rcases hpp : (prepair_pr task w).1 with e | p
        · have hres : (run_migration_task task w).1 =
              Except.error MigrationError.UnableToCreatePullRequest := by
            simp only [run_migration_task, hcan, hext, hws, hcl, hpf]
            norm_num
            simp only [hs1, hdry]
            rw [if_pos trivial]
            simp only [hpp]
          refine ⟨?_, ?_, ?_⟩
          · intro files h
            rw [hres] at h
            simp at h
          · intro h
            rw [hres] at h
            simp at h
          · intro _ h2
            exact absurd hres h2
        · have hres : (run_migration_task task w).1 =
              Except.ok (ExpectedResults.PullRequest p) := by
            simp only [run_migration_task, hcan, hext, hws, hcl, hpf]
            norm_num
            simp only [hs1, hdry]
            rw [if_pos trivial]
            simp only [hpp]
          refine ⟨?_, ?_, ?_⟩
          · intro files h
            rw [hres] at h
            simp at h
          · intro h
            rw [hres] at h
            simp at h
          · intro h1 _
            exact absurd hres (h1 p)
  · -- a step command failed
    have hs1 : (run_migration_script task w).1 =
        Except.ok (ThisResult.ExpectedError (ExpectedResults.MigrationFailed nm)) := by
      rw [run_migration_script, hms]
    have hrun : run_migration_task task w =
        (Except.ok (ExpectedResults.MigrationFailed nm),
          PipelineAction.clone :: PipelineAction.preflight ::
            (run_steps w 0 task.steps).2) := by
      simp only [run_migration_task, hcan, hext, hws, hcl, hpf]
      norm_num
      simp only [hs1, run_migration_script_trace]
    rw [hrun]
    refine ⟨?_, ?_, ?_⟩
    · intro files h
      simp at h
    · intro h
      simp at h
    · intro _ _
      exact hearly0

/-- C2: the pipeline executes its steps in the fixed order clone, then
    pre-flight, then the migration steps in declared order, then push,
    then publish (the successful run's trace has exactly that shape and
    phases strictly increase along every trace); every trace is an
    initial segment of the successful run's trace; a failing action is
    terminal — no action of the trace has a later phase; and the outcome
    is tied to the trace end: a dirty-tree WorkingDirNotClean failure or
    a failing status query leaves the trace ending exactly with the last
    migration step, and every Abort or Failure outcome other than a
    push/publish-stage error yields a trace of early actions only, so no
    push or forge call occurs past the short-circuit point. -/
theorem pipeline_order_and_short_circuit (task : MigrationTask) (w : PipelineWorld) :
    List.Pairwise
      (fun a b => PipelineAction.phase task.steps.length a <
        PipelineAction.phase task.steps.length b)
      (run_migration_task task w).2
    ∧ (∃ k, (run_migration_task task w).2 =
        ((run_migration_task task PipelineWorld.allOk).2).take k)
    ∧ (∀ a ∈ (run_migration_task task w).2, w.failsAt a = true →
        ∀ b ∈ (run_migration_task task w).2,
          PipelineAction.phase task.steps.length b ≤
            PipelineAction.phase task.steps.length a)
    ∧ (run_migration_task task PipelineWorld.allOk).2 =
        PipelineAction.clone :: PipelineAction.preflight :: stepActions 0 task.steps ++
          (if task.execution_opts.dry_run then []
           else if task.execution_opts.is_push_enabled then
             PipelineAction.push :: pubActions task
           else pubActions task)
    ∧ (∀ files, (run_migration_task task w).1 =
          Except.ok (ExpectedResults.WorkingDirNotClean files) →
        (run_migration_task task w).2 =
          PipelineAction.clone :: PipelineAction.preflight :: stepActions 0 task.steps)
    ∧ ((run_migration_task task w).1 = Except.error MigrationError.AnyHowError →
        (run_migration_task task w).2 =
          PipelineAction.clone :: PipelineAction.preflight :: stepActions 0 task.steps)
    ∧ ((∀ p, (run_migration_task task w).1 ≠
            Except.ok (ExpectedResults.PullRequest p)) →
        (run_migration_task task w).1 ≠
          Except.error MigrationError.UnableToCreatePullRequest →
        ∀ x ∈ (run_migration_task task w).2, x.isEarly = true) := by
  obtain ⟨k, htk⟩ := run_migration_task_trace_take task w
  obtain ⟨hdirty, hanyhow, hearly⟩ := run_migration_task_outcome_trace task w
  refine ⟨?_, ⟨k, htk⟩, run_migration_task_fail_last task w,
    run_migration_task_allOk_trace task, hdirty, hanyhow, hearly⟩
  rw [htk]
  exact (run_migration_task_allOk_pairwise task).sublist (List.take_sublist _ _)

/-- Concrete instance of `pipeline_order_and_short_circuit`: a run whose
    only step exits 0 but leaves the tree dirty stops right after that
    step — no push, no forge call — and when the pre-flight command fails
    the trace stops at the pre-flight action. -/
theorem pipeline_order_and_short_circuit_witness :
    (run_migration_task exampleTask exampleDirtyWorld).2 =
      [PipelineAction.clone, PipelineAction.preflight, PipelineAction.step 0 "rename"]
    ∧ (run_migration_task exampleTask preflightFailWorld).2 =
        [PipelineAction.clone, PipelineAction.preflight]
    ∧ PipelineAction.phase exampleTask.steps.length PipelineAction.clone ≤
        PipelineAction.phase exampleTask.steps.length PipelineAction.preflight :=
  ⟨(pipeline_order_and_short_circuit exampleTask exampleDirtyWorld).2.2.2.2.1
      ["a.txt"] (by decide),
    by decide,
    (pipeline_order_and_short_circuit exampleTask preflightFailWorld).2.2.1
      PipelineAction.preflight (by decide) (by decide) PipelineAction.clone (by decide)⟩

/-- When every stage before push/publish succeeds, the trace is the full
    early part followed by the push/publish tail determined by the flags
    and the push outcome; under dry-run the result is DryRun. -/
theorem run_migration_task_reached (task : MigrationTask) (w : PipelineWorld)
    (h : reaches_publish_stage task w = true) :
    (run_migration_task task w).2 =
      PipelineAction.clone :: PipelineAction.preflight :: stepActions 0 task.steps ++
        (if task.execution_opts.dry_run then []
         else if task.execution_opts.is_push_enabled then
           (if w.push_ok then PipelineAction.push :: pubActions task
            else [PipelineAction.push])
         else pubActions task)
    ∧ (task.execution_opts.dry_run = true →
        (run_migration_task task w).1 = Except.ok ExpectedResults.DryRun) := by
  simp only [reaches_publish_stage, Bool.and_eq_true] at h
  obtain ⟨⟨⟨⟨⟨⟨⟨hcan, hext⟩, hws⟩, hcl⟩, hpf⟩, hall⟩, hro⟩, hfe⟩ := h
  have hms : (run_steps w 0 task.steps).1 = none := by
    refine (run_steps_result_none w task.steps 0).mpr ?_
    intro j hj
    have := List.all_eq_true.mp hall j (List.mem_range.mpr hj)
    simpa using this
  have hscr2 : (run_migration_script task w).2 = stepActions 0 task.steps := by
    rw [run_migration_script_trace, run_steps_trace_of_none w task.steps 0 hms]
  have hs1 : (run_migration_script task w).1 = Except.ok ThisResult.Ok := by
    rw [run_migration_script, hms]
    simp [hro, hfe]
  constructor
  · simp only [run_migration_task, hcan, hext, hws, hcl, hpf]
    norm_num
    cases hdry : task.execution_opts.dry_run with
    | true =>
      simp only [hs1, hdry]
      rw [if_neg (by simp : ¬((true : Bool) = false))]
      simp [hscr2]
    | false =>
      simp only [hs1, hdry]
      rw [if_pos trivial]
      have hptr := prepair_pr_trace task w
      rcases hpp : (prepair_pr task w).1 with e | p <;>
      · simp [hscr2, hptr]
  · intro hdry
    simp only [run_migration_task, hcan, hext, hws, hcl, hpf]
    norm_num
    simp only [hs1, hdry]
    rw [if_neg (by simp : ¬((true : Bool) = false))]

/-- When some stage before push/publish fails, every trace action is an
    early one: no push and no forge call happens. -/
theorem run_migration_task_not_reached (task : MigrationTask) (w : PipelineWorld)
    (h : reaches_publish_stage task w = false) :
    ∀ x ∈ (run_migration_task task w).2, x.isEarly = true := by
  have hearly0 : ∀ x ∈ PipelineAction.clone :: PipelineAction.preflight ::
      (run_steps w 0 task.steps).2, x.isEarly = true := by
    intro x hx
    rcases List.mem_cons.mp hx with rfl | hx1
    · rfl
    rcases List.mem_cons.mp hx1 with rfl | hx2
    · rfl
    obtain ⟨j, nm2, rfl, _, _⟩ := run_steps_mem_shape w task.steps 0 x hx2
    rfl
  cases hcan : w.canonicalize_ok with
  | false => intro x hx; simp [run_migration_task, hcan] at hx
  | true =>
  cases hext : w.extract_ok with
  | false => intro x hx; simp [run_migration_task, hcan, hext] at hx
  | true =>
  cases hws : w.workspace_new_ok with
  | false => intro x hx; simp [run_migration_task, hcan, hext, hws] at hx
  | true =>
  cases hcl : w.clone_ok with
  | false =>
    intro x hx
    simp [run_migration_task, hcan, hext, hws, hcl] at hx
    subst hx
    rfl
  | true =>
  cases hpf : w.preflight_ok with
  | false =>
    intro x hx
    simp [run_migration_task, hcan, hext, hws, hcl, hpf] at hx
    rcases hx with rfl | rfl <;> rfl
  | true =>
  simp only [run_migration_task, hcan, hext, hws, hcl, hpf]
  norm_num
  rcases hms : (run_steps w 0 task.steps).1 with _ | nm
  · cases hro : w.repo_open_ok with
    | false =>
      have hs1 : (run_migration_script task w).1 =
          Except.error MigrationError.AnyHowError := by
        rw [run_migration_script, hms]
        simp [hro]
      simp only [hs1, run_migration_script_trace]
      exact hearly0
    | true =>
    cases hfe : w.status_files.isEmpty with
    | false =>
      have hs1 : (run_migration_script task w).1 =
          Except.ok (ThisResult.ExpectedError
            (ExpectedResults.WorkingDirNotClean w.status_files)) := by
        rw [run_migration_script, hms]
        simp [hro, hfe]
      simp only [hs1, run_migration_script_trace]
      exact hearly0
    | true =>
      have hreach : reaches_publish_stage task w = true := by
        simp only [reaches_publish_stage, hcan, hext, hws, hcl, hpf, hro, hfe,
          Bool.and_eq_true, List.all_eq_true]
        norm_num
        intro j hj
        have := (run_steps_result_none w task.steps 0).mp hms j hj
        simpa using this
      rw [hreach] at h
      cases h
  · have hs1 : (run_migration_script task w).1 =
        Except.ok (ThisResult.ExpectedError (ExpectedResults.MigrationFailed nm)) := by
      rw [run_migration_script, hms]
    simp only [hs1, run_migration_script_trace]
    exact hearly0

/-- The early actions of a trace depend only on the world and the step
    list, never on the execution flags: the flags are consulted only
    after the migration steps. -/
theorem run_migration_task_early_trace (task : MigrationTask) (w : PipelineWorld) :
    earlyActions (run_migration_task task w).2 =
      (if w.canonicalize_ok = false ∨ w.extract_ok = false ∨ w.workspace_new_ok = false
        then []
       else if w.clone_ok = false then [PipelineAction.clone]
       else if w.preflight_ok = false then
         [PipelineAction.clone, PipelineAction.preflight]
       else PipelineAction.clone :: PipelineAction.preflight ::
         (run_steps w 0 task.steps).2) := by
  have hearly_steps : ∀ x ∈ (run_steps w 0 task.steps).2,
      PipelineAction.isEarly x = true := by
    intro x hx
    obtain ⟨j, nm2, rfl, _, _⟩ := run_steps_mem_shape w task.steps 0 x hx
    rfl
  have hfilter0 : earlyActions (PipelineAction.clone :: PipelineAction.preflight ::
      (run_steps w 0 task.steps).2) =
      PipelineAction.clone :: PipelineAction.preflight ::
        (run_steps w 0 task.steps).2 := by
    rw [earlyActions]
    exact List.filter_eq_self.mpr (by
      intro a ha
      rcases List.mem_cons.mp ha with rfl | ha1
      · rfl
      rcases List.mem_cons.mp ha1 with rfl | ha2
      · rfl
      · exact hearly_steps a ha2)
  cases hcan : w.canonicalize_ok with
  | false => simp [run_migration_task, earlyActions, hcan]
  | true =>
  cases hext : w.extract_ok with
  | false => simp [run_migration_task, earlyActions, hcan, hext]
  | true =>
  cases hws : w.workspace_new_ok with
  | false => simp [run_migration_task, earlyActions, hcan, hext, hws]
  | true =>
  cases hcl : w.clone_ok with
  | false =>
    simp [run_migration_task, earlyActions, hcan, hext, hws, hcl,
      PipelineAction.isEarly]
  | true =>
  cases hpf : w.preflight_ok with
  | false =>
    simp [run_migration_task, earlyActions, hcan, hext, hws, hcl, hpf,
      PipelineAction.isEarly]
  | true =>
  simp only [run_migration_task, hcan, hext, hws, hcl, hpf]
  norm_num
  rcases hms : (run_steps w 0 task.steps).1 with _ | nm
  · cases hro : w.repo_open_ok with
    | false =>
      have hs1 : (run_migration_script task w).1 =
          Except.error MigrationError.AnyHowError := by
        rw [run_migration_script, hms]
        simp [hro]
      simp only [hs1, run_migration_script_trace]
      exact hfilter0
    | true =>
    cases hfe : w.status_files.isEmpty with
    | false =>
      have hs1 : (run_migration_script task w).1 =
          Except.ok (ThisResult.ExpectedError
            (ExpectedResults.WorkingDirNotClean w.status_files)) := by
        rw [run_migration_script, hms]
        simp [hro, hfe]
      simp only [hs1, run_migration_script_trace]
      exact hfilter0
    | true =>
      have hs1 : (run_migration_script task w).1 = Except.ok ThisResult.Ok := by
        rw [run_migration_script, hms]
        simp [hro, hfe]
      cases hdry : task.execution_opts.dry_run with
      | true =>
        simp only [hs1, hdry]
        rw [if_neg (by simp : ¬((true : Bool) = false))]
        simp only [run_migration_script_trace]
        exact hfilter0
      | false =>
        simp only [hs1, hdry]
        rw [if_pos trivial]
        have hlate : ∀ x ∈ (prepair_pr task w).2, PipelineAction.isEarly x = false := by
          intro x hx
          rw [prepair_pr_trace] at hx
          by_cases hpe : task.execution_opts.is_push_enabled = true
          · rw [if_pos hpe] at hx
            by_cases hpo : w.push_ok = true
            · rw [if_pos hpo] at hx
              rcases List.mem_cons.mp hx with rfl | hx2
              · rfl
              · obtain ⟨kd, rfl⟩ := pubActions_mem task x hx2
                rfl
            · rw [if_neg hpo] at hx
              rcases List.mem_singleton.mp hx with rfl
              rfl
          · rw [if_neg hpe] at hx
            obtain ⟨kd, rfl⟩ := pubActions_mem task x hx
            rfl
        have happ : ∀ (res : Except MigrationError ExpectedResults),
            (res, PipelineAction.clone :: PipelineAction.preflight ::
              ((run_migration_script task w).2 ++ (prepair_pr task w).2)).2 =
            PipelineAction.clone :: PipelineAction.preflight ::
              ((run_migration_script task w).2 ++ (prepair_pr task w).2) :=
          fun _ => rfl
        have hfilS : (run_migration_script task w).2.filter PipelineAction.isEarly =
            (run_migration_script task w).2 :=
          List.filter_eq_self.mpr (fun a ha => by
            rw [run_migration_script_trace] at ha
            exact hearly_steps a ha)
        have hfilP : (prepair_pr task w).2.filter PipelineAction.isEarly = [] :=
          List.filter_eq_nil_iff.mpr (fun a ha => by simp [hlate a ha])
        rcases hpp : (prepair_pr task w).1 with e | p <;>
        · rw [earlyActions]
          rw [show (PipelineAction.clone :: PipelineAction.preflight ::
              ((run_migration_script task w).2 ++ (prepair_pr task w).2)).filter
              PipelineAction.isEarly =
              PipelineAction.clone :: PipelineAction.preflight ::
              ((run_migration_script task w).2.filter PipelineAction.isEarly ++
                (prepair_pr task w).2.filter PipelineAction.isEarly) from by
            simp [List.filter_append, PipelineAction.isEarly]]
          rw [hfilS, hfilP]
          simp [run_migration_script_trace]
  · have hs1 : (run_migration_script task w).1 =
        Except.ok (ThisResult.ExpectedError (ExpectedResults.MigrationFailed nm)) := by
      rw [run_migration_script, hms]
    simp only [hs1, run_migration_script_trace]
    exact hfilter0

/-- C6 counterexample: with only the skip-push flag set (publishing via
    push disabled) and every external interaction succeeding, the
    pipeline does not yield any abort for the push stage — it runs no
    push, yet still publishes: the run returns a created pull request. -/
theorem push_gating_counterexample :
    (run_migration_task exampleSkipPushTask PipelineWorld.allOk).1 =
      Except.ok (ExpectedResults.PullRequest { pr_number := 1, url := "c" })
    ∧ PipelineAction.push ∉ (run_migration_task exampleSkipPushTask PipelineWorld.allOk).2
    ∧ PipelineAction.publish PublishKind.create ∈
        (run_migration_task exampleSkipPushTask PipelineWorld.allOk).2 := by
  decide

/-- C6 amended: the pipeline runs `git push --force-with-lease` exactly
    when pushing is enabled (neither dry-run nor skip-push) and every
    earlier stage succeeded; the flags never alter the clone, pre-flight
    or migration-step actions; under dry-run neither push nor any forge
    call happens and the result is DryRun; with only skip-push set no
    abort occurs — the push is skipped but publishing still proceeds. -/
theorem push_gating_amended (task : MigrationTask) (w : PipelineWorld) :
    (PipelineAction.push ∈ (run_migration_task task w).2 ↔
      task.execution_opts.is_push_enabled = true ∧
        reaches_publish_stage task w = true)
    ∧ (∀ opts' : ExecutionOptions,
        earlyActions (run_migration_task { task with execution_opts := opts' } w).2 =
          earlyActions (run_migration_task task w).2)
    ∧ (task.execution_opts.dry_run = true →
        PipelineAction.push ∉ (run_migration_task task w).2
        ∧ (∀ kind, PipelineAction.publish kind ∉ (run_migration_task task w).2)
        ∧ (reaches_publish_stage task w = true →
            (run_migration_task task w).1 = Except.ok ExpectedResults.DryRun))
    ∧ (task.execution_opts.skip_push = true →
        task.execution_opts.dry_run = false →
        task.execution_opts.skip_pull_request = false →
        reaches_publish_stage task w = true →
        PipelineAction.push ∉ (run_migration_task task w).2
        ∧ ∃ kind, PipelineAction.publish kind ∈ (run_migration_task task w).2) := by
  have hmem_nopush : ∀ (tail : List PipelineAction),
      (∀ x ∈ tail, x ≠ PipelineAction.push) →
      PipelineAction.push ∉ PipelineAction.clone :: PipelineAction.preflight ::
        (stepActions 0 task.steps ++ tail) := by
    intro tail htail hmem
    rcases List.mem_cons.mp hmem with h | hmem1
    · exact PipelineAction.noConfusion h
    rcases List.mem_cons.mp hmem1 with h | hmem2
    · exact PipelineAction.noConfusion h
    rcases List.mem_append.mp hmem2 with hs | ht
    · obtain ⟨j, nm2, heq, _, _⟩ := stepActions_mem_shape task.steps 0 _ hs
      exact PipelineAction.noConfusion heq
    · exact htail _ ht rfl
  have hmem_nopub : ∀ (tail : List PipelineAction),
      (∀ x ∈ tail, ∀ k, x ≠ PipelineAction.publish k) →
      ∀ k, PipelineAction.publish k ∉ PipelineAction.clone :: PipelineAction.preflight ::
        (stepActions 0 task.steps ++ tail) := by
    intro tail htail k hmem
    rcases List.mem_cons.mp hmem with h | hmem1
    · exact PipelineAction.noConfusion h
    rcases List.mem_cons.mp hmem1 with h | hmem2
    · exact PipelineAction.noConfusion h
    rcases List.mem_append.mp hmem2 with hs | ht
    · obtain ⟨j, nm2, heq, _, _⟩ := stepActions_mem_shape task.steps 0 _ hs
      exact PipelineAction.noConfusion heq
    · exact htail _ ht k rfl
  refine ⟨?_, ?_, ?_, ?_⟩
  · constructor
    · intro hmem
      by_cases hreach : reaches_publish_stage task w = true
      case neg =>
        have hreach' := eq_false_of_ne_true hreach
        have := run_migration_task_not_reached task w hreach' PipelineAction.push hmem
        simp [PipelineAction.isEarly] at this
      case pos =>
        refine ⟨?_, hreach⟩
        obtain ⟨htr, _⟩ := run_migration_task_reached task w hreach
        rw [htr] at hmem
        rcases List.mem_cons.mp hmem with h | hmem1
        · exact PipelineAction.noConfusion h
        rcases List.mem_cons.mp hmem1 with h | hmem2
        · exact PipelineAction.noConfusion h
        rcases List.mem_append.mp hmem2 with hs | ht
        · obtain ⟨j, nm2, heq, _, _⟩ := stepActions_mem_shape task.steps 0 _ hs
          exact PipelineAction.noConfusion heq
        · cases hdry : task.execution_opts.dry_run with
          | true =>
            rw [hdry] at ht
            simp at ht
          | false =>
            rw [hdry] at ht
            simp only [Bool.false_eq_true, if_false] at ht
            cases hpe : task.execution_opts.is_push_enabled with
            | true => rfl
            | false =>
              rw [hpe] at ht
              simp only [Bool.false_eq_true, if_false] at ht
              obtain ⟨kd, heq⟩ := pubActions_mem task _ ht
              exact PipelineAction.noConfusion heq
    · rintro ⟨hpe, hreach⟩
      obtain ⟨htr, _⟩ := run_migration_task_reached task w hreach
      rw [htr]
      have hflags : task.execution_opts.dry_run = false := by
        simp only [ExecutionOptions.is_push_enabled, Bool.and_eq_true,
          Bool.not_eq_true'] at hpe
        exact hpe.1
      have hin : PipelineAction.push ∈
          (if task.execution_opts.dry_run then ([] : List PipelineAction)
           else if task.execution_opts.is_push_enabled then
             (if w.push_ok then PipelineAction.push :: pubActions task
              else [PipelineAction.push])
           else pubActions task) := by
        rw [hflags, hpe]
        by_cases hpo : w.push_ok = true <;> simp [hpo]
      exact List.mem_cons.mpr (Or.inr (List.mem_cons.mpr (Or.inr
        (List.mem_append.mpr (Or.inr hin)))))
  · intro opts'
    rw [run_migration_task_early_trace, run_migration_task_early_trace]
  · intro hdry
    by_cases hreach : reaches_publish_stage task w = true
    case pos =>
      obtain ⟨htr, hres⟩ := run_migration_task_reached task w hreach
      have htail : (if task.execution_opts.dry_run then ([] : List PipelineAction)
          else if task.execution_opts.is_push_enabled then
            (if w.push_ok then PipelineAction.push :: pubActions task
             else [PipelineAction.push])
          else pubActions task) = [] := by
        rw [hdry]
        rfl
      rw [htail] at htr
      refine ⟨?_, ?_, fun _ => hres hdry⟩
      · rw [htr]
        exact hmem_nopush [] (by intro x hx; cases hx)
      · intro kind
        rw [htr]
        exact hmem_nopub [] (by intro x hx; cases hx) kind
    case neg =>
      have hreach' := eq_false_of_ne_true hreach
      refine ⟨?_, ?_, ?_⟩
      · intro hmem
        have := run_migration_task_not_reached task w hreach' PipelineAction.push hmem
        simp [PipelineAction.isEarly] at this
      · intro kind hmem
        have := run_migration_task_not_reached task w hreach'
          (PipelineAction.publish kind) hmem
        simp [PipelineAction.isEarly] at this
      · intro h
        exact absurd h hreach
  · intro hskip hdry hskippr hreach
    obtain ⟨htr, _⟩ := run_migration_task_reached task w hreach
    have hpe : task.execution_opts.is_push_enabled = false := by
      simp [ExecutionOptions.is_push_enabled, hskip]
    have htail : (if task.execution_opts.dry_run then ([] : List PipelineAction)
        else if task.execution_opts.is_push_enabled then
          (if w.push_ok then PipelineAction.push :: pubActions task
           else [PipelineAction.push])
        else pubActions task) = pubActions task := by
      rw [hdry, hpe]
      rfl
    rw [htail] at htr
    constructor
    · rw [htr]
      refine hmem_nopush (pubActions task) ?_
      intro x hx
      obtain ⟨kd, rfl⟩ := pubActions_mem task x hx
      intro h
      exact PipelineAction.noConfusion h
    · have hpren : task.execution_opts.is_pr_enabled = true := by
        simp [ExecutionOptions.is_pr_enabled, hdry, hskippr]
      rcases hpr : task.pull_request with _ | prv
      · refine ⟨PublishKind.create, ?_⟩
        rw [htr]
        refine List.mem_cons.mpr (Or.inr (List.mem_cons.mpr (Or.inr
          (List.mem_append.mpr (Or.inr ?_)))))
        simp [pubActions, hpr, hpren]
      · refine ⟨PublishKind.update, ?_⟩
        rw [htr]
        refine List.mem_cons.mpr (Or.inr (List.mem_cons.mpr (Or.inr
          (List.mem_append.mpr (Or.inr ?_)))))
        simp [pubActions, hpr]

/-- Concrete instance of `push_gating_amended`: the skip-push run of the
    example task performs no push but does publish. -/
theorem push_gating_amended_witness :
    PipelineAction.push ∉
        (run_migration_task exampleSkipPushTask PipelineWorld.allOk).2
    ∧ ∃ kind, PipelineAction.publish kind ∈
        (run_migration_task exampleSkipPushTask PipelineWorld.allOk).2 :=
  (push_gating_amended exampleSkipPushTask PipelineWorld.allOk).2.2.2
    rfl rfl rfl (by decide)

/-- C3: reconciliation queries the remembered pull request when there is
    one; while it is still open its title and body are updated and no
    create call happens; when it is closed, or when no pull request is
    remembered, a fresh pull request is created with the repository's
    current default branch as base (and with no remembered number, the
    pull request is never even fetched); `UpdateGithubStep` passes the
    target's remembered pull-request number to the sync. -/
theorem sync_pull_request_reconciliation (w : ForgeWorld)
    (d : PullRequestDescription) :
    (∀ num gh_pull, w.pr_details num = some gh_pull →
      gh_pull.state = PullRequestState.OPEN →
      (∃ pr_id, ForgeCall.updatePr pr_id d.title d.body ∈
        (sync_pull_request w d (some num)).2)
      ∧ (∀ base head t b, ForgeCall.createPr base head t b ∉
          (sync_pull_request w d (some num)).2)
      ∧ ForgeCall.fetchPr num ∈ (sync_pull_request w d (some num)).2)
    ∧ (∀ num gh_pull r db, w.pr_details num = some gh_pull →
      gh_pull.state ≠ PullRequestState.OPEN →
      w.repository = some r → r.default_branch_ref = some db →
      ForgeCall.createPr (db.prefix_str ++ db.name) (db.prefix_str ++ d.branch)
          d.title d.body ∈ (sync_pull_request w d (some num)).2
      ∧ (∀ pr_id t b, ForgeCall.updatePr pr_id t b ∉
          (sync_pull_request w d (some num)).2))
    ∧ ((∀ pr_id t b, ForgeCall.updatePr pr_id t b ∉ (sync_pull_request w d none).2)
      ∧ (∀ num, ForgeCall.fetchPr num ∉ (sync_pull_request w d none).2)
      ∧ (∀ r db, w.repository = some r → r.default_branch_ref = some db →
          ForgeCall.createPr (db.prefix_str ++ db.name) (db.prefix_str ++ d.branch)
            d.title d.body ∈ (sync_pull_request w d none).2))
    ∧ (∀ existing_pr : Option CreatedPullRequest,
        (UpdateGithubStep.execute_step w existing_pr d).2 =
          (sync_pull_request w d (existing_pr.map (fun p => p.pr_number))).2) := by
  refine ⟨?_, ?_, ?_, ?_⟩
  · intro num gh_pull hdet hopen
    have ho1 : (is_pr_open w num).1 = Except.ok true := by
      simp [is_pr_open, hdet, hopen]
    have ho2 : (is_pr_open w num).2 = [ForgeCall.fetchPr num] := by
      simp [is_pr_open, hdet]
    have hu2 : (update_pull_request w d num).2 =
        [ForgeCall.fetchPr num, ForgeCall.updatePr gh_pull.id d.title d.body] := by
      rcases hur : w.update_result with _ | pr <;> simp [update_pull_request, hdet, hur]
    have htr : (sync_pull_request w d (some num)).2 =
        [ForgeCall.fetchPr num, ForgeCall.fetchPr num,
          ForgeCall.updatePr gh_pull.id d.title d.body] := by
      simp [sync_pull_request, ho1, ho2, hu2]
    rw [htr]
    refine ⟨⟨gh_pull.id, by simp⟩, ?_, by simp⟩
    intro base head t b
    simp
  · intro num gh_pull r db hdet hclosed hrep hdb
    have hdec : decide (gh_pull.state = PullRequestState.OPEN) = false :=
      decide_eq_false hclosed
    have ho1 : (is_pr_open w num).1 = Except.ok false := by
      simp [is_pr_open, hdet, hdec]
    have ho2 : (is_pr_open w num).2 = [ForgeCall.fetchPr num] := by
      simp [is_pr_open, hdet]
    have hrd : fetch_repo_details w = Except.ok
        { id := r.id, target_branch := db.prefix_str ++ db.name,
          prefix_str := db.prefix_str } := by
      simp [fetch_repo_details, hrep, hdb]
    have hc2 : (create_pull_request w d).2 =
        [ForgeCall.fetchRepo,
          ForgeCall.createPr (db.prefix_str ++ db.name) (db.prefix_str ++ d.branch)
            d.title d.body] := by
      rcases hcr : w.create_result with _ | pr <;> simp [create_pull_request, hrd, hcr]
    have htr : (sync_pull_request w d (some num)).2 =
        [ForgeCall.fetchPr num, ForgeCall.fetchRepo,
          ForgeCall.createPr (db.prefix_str ++ db.name) (db.prefix_str ++ d.branch)
            d.title d.body] := by
      simp [sync_pull_request, ho1, ho2, hc2]
    rw [htr]
    refine ⟨by simp, ?_⟩
    intro pr_id t b
    simp
  · have hnone : (sync_pull_request w d none).2 = (create_pull_request w d).2 := rfl
    have hc2 : (create_pull_request w d).2 = [ForgeCall.fetchRepo] ∨
        ∃ base head, (create_pull_request w d).2 =
          [ForgeCall.fetchRepo, ForgeCall.createPr base head d.title d.body] := by
      rcases hrep : w.repository with _ | r
      · exact Or.inl (by simp [create_pull_request, fetch_repo_details, hrep])
      rcases hdb : r.default_branch_ref with _ | db
      · exact Or.inl (by simp [create_pull_request, fetch_repo_details, hrep, hdb])
      rcases hcr : w.create_result with _ | pr
      · exact Or.inr ⟨db.prefix_str ++ db.name, db.prefix_str ++ d.branch,
          by simp [create_pull_request, fetch_repo_details, hrep, hdb, hcr]⟩
      · exact Or.inr ⟨db.prefix_str ++ db.name, db.prefix_str ++ d.branch,
          by simp [create_pull_request, fetch_repo_details, hrep, hdb, hcr]⟩
    refine ⟨?_, ?_, ?_⟩
    · intro pr_id t b
      rw [hnone]
      rcases hc2 with h | ⟨base, head, h⟩ <;> rw [h] <;> simp
    · intro num
      rw [hnone]
      rcases hc2 with h | ⟨base, head, h⟩ <;> rw [h] <;> simp
    · intro r db hrep hdb
      rw [hnone]
      have hrd : fetch_repo_details w = Except.ok
          { id := r.id, target_branch := db.prefix_str ++ db.name,
            prefix_str := db.prefix_str } := by
        simp [fetch_repo_details, hrep, hdb]
      rcases hcr : w.create_result with _ | pr <;>
        simp [create_pull_request, hrd, hcr]
  · intro existing_pr
    rcases hs : (sync_pull_request w d (existing_pr.map (fun p => p.pr_number))).1
      with e | pr <;> simp [UpdateGithubStep.execute_step, hs]

/-- Concrete instance of `sync_pull_request_reconciliation`: syncing the
    example world's open pull request number 7 performs an update and no
    create. -/
theorem sync_pull_request_reconciliation_witness :
    (∃ pr_id, ForgeCall.updatePr pr_id examplePrDescription.title
        examplePrDescription.body ∈
      (sync_pull_request exampleForgeWorld examplePrDescription (some 7)).2)
    ∧ (∀ base head t b, ForgeCall.createPr base head t b ∉
        (sync_pull_request exampleForgeWorld examplePrDescription (some 7)).2)
    ∧ ForgeCall.fetchPr 7 ∈
        (sync_pull_request exampleForgeWorld examplePrDescription (some 7)).2 :=
  (sync_pull_request_reconciliation exampleForgeWorld examplePrDescription).1
    7 exampleOpenPr rfl rfl

/-- Storing a pull request on one target leaves the target keys
    unchanged. -/
theorem apply_result_keys (targets : List (String × TargetDescription))
    (nm : String) (pr : CreatedPullRequest) :
    (apply_result targets nm pr).map Prod.fst = targets.map Prod.fst := by
  induction targets with
  | nil => rfl
  | cons hd tl ih =>
    by_cases h : hd.1 = nm <;> simp [apply_result, h] at ih ⊢ <;> exact ih

/-- Storing a pull request on one target does not change entries with a
    different name. -/
theorem apply_result_mem_of_ne (targets : List (String × TargetDescription))
    (nm : String) (pr : CreatedPullRequest) (nm' : String) (t : TargetDescription)
    (hmem : (nm', t) ∈ targets) (hne : nm' ≠ nm) :
    (nm', t) ∈ apply_result targets nm pr := by
  have := List.mem_map_of_mem (fun p : String × TargetDescription =>
    if p.1 = nm then (p.1, { p.2 with pull_request := some pr }) else p) hmem
  simpa [apply_result, hne] using this

/-- Storing a pull request updates the matching entries. -/
theorem apply_result_mem_self (targets : List (String × TargetDescription))
    (nm : String) (pr : CreatedPullRequest) (t : TargetDescription)
    (hmem : (nm, t) ∈ targets) :
    (nm, { t with pull_request := some pr }) ∈ apply_result targets nm pr := by
  have := List.mem_map_of_mem (fun p : String × TargetDescription =>
    if p.1 = nm then (p.1, { p.2 with pull_request := some pr }) else p) hmem
  simpa [apply_result] using this

/-- A name that appears in no collected result has no recorded success. -/
theorem lookup_success_of_not_mem (results : List (String × MigrationStatus))
    (nm : String) (h : nm ∉ results.map Prod.fst) :
    lookup_success results nm = none := by
  rw [lookup_success]
  rw [List.find?_eq_none.mpr]
  intro p hp
  simp only [decide_eq_true_eq]
  intro heq
  exact h (List.mem_map.mpr ⟨p, hp, heq⟩)

/-- C7: rewriting the campaign state replaces a target's stored
    pull-request reference exactly when that target's pipeline produced a
    successfully published pull request; every other target's record —
    failed or aborted — is written back exactly as it was read. The
    result-map keys are unique (it is a BTreeMap) and every key names a
    target (the tasks were built from the targets). -/
theorem apply_results_frame (results : List (String × MigrationStatus))
    (targets : List (String × TargetDescription))
    (hnodup : (results.map Prod.fst).Nodup)
    (hkeys : ∀ p ∈ results, p.1 ∈ targets.map Prod.fst) :
    ∃ targets', apply_results targets results = some targets'
    ∧ ∀ nm t, (nm, t) ∈ targets →
        (∀ pr, lookup_success results nm = some pr →
          (nm, { t with pull_request := some pr }) ∈ targets')
        ∧ (lookup_success results nm = none → (nm, t) ∈ targets') := by
  induction results generalizing targets with
  | nil =>
    refine ⟨targets, rfl, ?_⟩
    intro nm t hmem
    constructor
    · intro pr hpr
      simp [lookup_success] at hpr
    · intro _
      exact hmem
  | cons hd rest ih =>
    obtain ⟨nm0, st0⟩ := hd
    rw [List.map_cons, List.nodup_cons] at hnodup
    obtain ⟨hnotin, hnodup'⟩ := hnodup
    cases hsp : status_success_pr st0 with
    | none =>
      have heq : apply_results targets ((nm0, st0) :: rest) =
          apply_results targets rest := by
        simp [apply_results, hsp]
      obtain ⟨targets', hres, hmemprop⟩ :=
        ih targets hnodup' (fun p hp => hkeys p (List.mem_cons_of_mem _ hp))
      refine ⟨targets', heq.trans hres, ?_⟩
      intro nm t hmem
      have hlk : lookup_success ((nm0, st0) :: rest) nm = lookup_success rest nm := by
        by_cases h : nm0 = nm
        · subst h
          have hrest : lookup_success rest nm0 = none :=
            lookup_success_of_not_mem rest nm0 hnotin
          rw [hrest]
          simp [lookup_success, List.find?_cons, hsp]
        · simp [lookup_success, List.find?_cons, h]
      rw [hlk]
      exact hmemprop nm t hmem
    | some pr0 =>
      have hkey0 := hkeys (nm0, st0) (List.mem_cons_self _ _)
      have hin : targets.any (fun p => p.1 = nm0) = true := by
        rw [List.any_eq_true]
        obtain ⟨p, hp, hp1⟩ := List.mem_map.mp hkey0
        exact ⟨p, hp, by simp [hp1]⟩
      have heq : apply_results targets ((nm0, st0) :: rest) =
          apply_results (apply_result targets nm0 pr0) rest := by
        simp [apply_results, hsp, hin]
      have hkeys' : ∀ p ∈ rest, p.1 ∈ (apply_result targets nm0 pr0).map Prod.fst := by
        intro p hp
        rw [apply_result_keys]
        exact hkeys p (List.mem_cons_of_mem _ hp)
      obtain ⟨targets', hres, hmemprop⟩ :=
        ih (apply_result targets nm0 pr0) hnodup' hkeys'
      refine ⟨targets', heq.trans hres, ?_⟩
      intro nm t hmem
      by_cases h : nm = nm0
      · subst h
        have hlk : lookup_success ((nm, st0) :: rest) nm = some pr0 := by
          simp [lookup_success, List.find?_cons, hsp]
        have hrest : lookup_success rest nm = none :=
          lookup_success_of_not_mem rest nm hnotin
        have hmem' := apply_result_mem_self targets nm pr0 t hmem
        have hprop := hmemprop nm ({ t with pull_request := some pr0 }) hmem'
        constructor
        · intro pr hpr
          rw [hlk] at hpr
          obtain rfl : pr0 = pr := Option.some_inj.mp hpr
          exact hprop.2 hrest
        · intro hnone
          rw [hlk] at hnone
          cases hnone
      · have hmem' := apply_result_mem_of_ne targets nm0 pr0 nm t hmem h
        have hprop := hmemprop nm t hmem'
        have hlk : lookup_success ((nm0, st0) :: rest) nm = lookup_success rest nm := by
          have hne : nm0 ≠ nm := fun he => h he.symm
          simp [lookup_success, List.find?_cons, hne]
        rw [hlk]
        exact hprop


/-- Concrete instance of `apply_results_frame`: the successful target's
    pull request is replaced while the failed target's record is written
    back unchanged. -/
theorem apply_results_frame_witness :
    ∃ targets',
      apply_results [("repo-a", exampleTargetA), ("repo-b", exampleTargetB)]
          exampleResults = some targets'
      ∧ ("repo-a", { exampleTargetA with pull_request := some examplePr12 }) ∈ targets'
      ∧ ("repo-b", exampleTargetB) ∈ targets' := by
  obtain ⟨targets', hres, hmem⟩ := apply_results_frame exampleResults
    [("repo-a", exampleTargetA), ("repo-b", exampleTargetB)]
    (by decide) (by decide)
  refine ⟨targets', hres, ?_, ?_⟩
  · exact (hmem "repo-a" exampleTargetA (by decide)).1 examplePr12 (by decide)
  · exact (hmem "repo-b" exampleTargetB (by decide)).2 (by decide)

/-- C8: with worker limit 3 (the constant passed to for_each_concurrent
    in both run_migration and run_followup), no reachable scheduler state
    has more than 3 pipelines executing — hence never more than 3 open
    execution contexts; pipelines of distinct targets have no mutual
    ordering guarantee (two reachable runs of the same two targets finish
    them in opposite orders); and each pipeline's own steps are strictly
    sequential (its trace's phases strictly increase). -/
theorem scheduler_bound_and_order :
    (∀ (targets : List String) (s : SchedulerState),
        SchedulerReachable targets s → s.active.length ≤ worker_limit)
    ∧ (∃ s1 s2 : SchedulerState,
        SchedulerReachable ["a", "b"] s1 ∧ SchedulerReachable ["a", "b"] s2
        ∧ s1.pending = [] ∧ s1.active = [] ∧ s2.pending = [] ∧ s2.active = []
        ∧ s1.finished = ["b", "a"] ∧ s2.finished = ["a", "b"]
        ∧ s1.finished ≠ s2.finished)
    ∧ (∀ (task : MigrationTask) (w : PipelineWorld),
        List.Pairwise
          (fun a b => PipelineAction.phase task.steps.length a <
            PipelineAction.phase task.steps.length b)
          (run_migration_task task w).2) := by
  refine ⟨?_, ?_, ?_⟩
  · intro targets s h
    induction h with
    | refl => simp [worker_limit]
    | tail hsteps hstep ih =>
      cases hstep with
      | start name p a f hmem hlt =>
        simpa using hlt
      | finish name p a f hmem =>
        exact le_trans (List.Sublist.length_le (List.erase_sublist name a)) ih
  · refine ⟨⟨[], [], ["b", "a"]⟩, ⟨[], [], ["a", "b"]⟩, ?_, ?_,
      rfl, rfl, rfl, rfl, rfl, rfl, by decide⟩
    · exact Relation.ReflTransGen.tail
        (Relation.ReflTransGen.tail
          (Relation.ReflTransGen.tail
            (Relation.ReflTransGen.tail Relation.ReflTransGen.refl
              (SchedulerStep.start "a" ["a", "b"] [] [] (by decide) (by decide)))
            (SchedulerStep.finish "a" ["b"] ["a"] [] (by decide)))
          (SchedulerStep.start "b" ["b"] [] ["a"] (by decide) (by decide)))
        (SchedulerStep.finish "b" [] ["b"] ["a"] (by decide))
    · exact Relation.ReflTransGen.tail
        (Relation.ReflTransGen.tail
          (Relation.ReflTransGen.tail
            (Relation.ReflTransGen.tail Relation.ReflTransGen.refl
              (SchedulerStep.start "b" ["a", "b"] [] [] (by decide) (by decide)))
            (SchedulerStep.finish "b" ["a"] ["b"] [] (by decide)))
          (SchedulerStep.start "a" ["a"] [] ["b"] (by decide) (by decide)))
        (SchedulerStep.finish "a" [] ["a"] ["b"] (by decide))
  · intro task w
    obtain ⟨k, htk⟩ := run_migration_task_trace_take task w
    rw [htk]
    exact (run_migration_task_allOk_pairwise task).sublist (List.take_sublist _ _)

/-- Concrete instance of `scheduler_bound_and_order`: the initial state
    of a two-target campaign respects the worker bound. -/
theorem scheduler_bound_and_order_witness :
    (SchedulerState.mk ["a", "b"] [] []).active.length ≤ worker_limit :=
  scheduler_bound_and_order.1 ["a", "b"] ⟨["a", "b"], [], []⟩
    Relation.ReflTransGen.refl
